import Mathlib

/-!
Verification of the avito_parser repository (src/avito_parser.py).

Strings are modelled as lists of characters (`Str`).  The pure string /
date logic of the source file is translated directly; calls into the
external collaborators (the `requests` HTTP library and the
BeautifulSoup HTML parser) are modelled as explicit oracle parameters,
matching the spec's description of them as external interfaces.

Python's `datetime.strptime` is modelled faithfully for the three
format strings the source uses (`%d %m %Y %H:%M`, `%d %m %H:%M`,
`%d %m %Y`): each directive is the ordered alternation of its CPython
`_strptime` regular expression (`%d` = `3[01]|[12]\d|0[1-9]|[1-9]`,
`%m` = `1[0-2]|0[1-9]|[1-9]`, `%H` = `2[0-3]|[0-1]\d|\d`,
`%M` = `[0-5]\d|\d`, `%Y` = `\d\d\d\d`), parses are enumerated in
backtracking order, and the first parse consuming the whole string is
taken; afterwards the `datetime` constructor's range check (day within
the month, year within 1..9999) is applied.
-/

namespace Avito

abbrev Str := List Char

/-- ASCII decimal digit test (models the digit class used by
`_strptime`'s regular expressions and by `int()`). -/
def isDig (c : Char) : Bool := decide (48 ≤ c.toNat ∧ c.toNat ≤ 57)

/-- Numeric value of an ASCII digit character. -/
def digitVal (c : Char) : Nat := c.toNat - 48

/-- Decimal rendering of a natural number, as Python's `str(int)`
produces for non-negative values (fuelled so that it is structural). -/
def renderNatAux : Nat → Nat → Str
  | 0, _ => []
  | f + 1, n =>
    if n < 10 then [Nat.digitChar n]
    else renderNatAux f (n / 10) ++ [Nat.digitChar (n % 10)]

def renderNat (n : Nat) : Str := renderNatAux (n + 1) n

/-- Two-digit zero padding, as Python's `'{:%m}'`/`%02d` formatting. -/
def pad2 (n : Nat) : Str := if n < 10 then '0' :: renderNat n else renderNat n

/-- Four-digit zero padding, as in `datetime.__str__`'s year field. -/
def pad4 (n : Nat) : Str :=
  if n < 10 then '0' :: '0' :: '0' :: renderNat n
  else if n < 100 then '0' :: '0' :: renderNat n
  else if n < 1000 then '0' :: renderNat n
  else renderNat n

/-- Python's `s[:-3]` (drop the last three characters). -/
def truncLast3 (s : Str) : Str := s.take (s.length - 3)

/-- `p.isPrefixOf s` for character lists (Python `str.startswith`,
used by `str.replace` when scanning for an occurrence). -/
def isPre : Str → Str → Bool
  | [], _ => true
  | _ :: _, [] => false
  | a :: p, b :: s => if a = b then isPre p s else false

/-- Python's substring test `pat in s`. -/
def isSub (p : Str) : Str → Bool
  | [] => decide (p = [])
  | c :: r => isPre p (c :: r) || isSub p r

/-- Python's `s.replace(old, '')`: remove every (leftmost,
non-overlapping) occurrence of `old` (fuelled, structural). -/
def replaceAllAux (old : Str) : Nat → Str → Str
  | 0, s => s
  | f + 1, s =>
    match s with
    | [] => []
    | c :: r =>
      if old ≠ [] ∧ isPre old (c :: r) = true then
        replaceAllAux old f (List.drop (old.length - 1) r)
      else
        c :: replaceAllAux old f r

def replaceAll (old s : Str) : Str := replaceAllAux old s.length s

/-- Python's `str.split()` (split on whitespace runs, dropping empty
chunks): accumulate the current word while scanning. -/
def pySplitGo (cur : Str) : Str → List Str
  | [] => if cur = [] then [] else [cur]
  | c :: r =>
    if c.isWhitespace then
      (if cur = [] then pySplitGo [] r else cur :: pySplitGo [] r)
    else pySplitGo (cur ++ [c]) r

def pySplit (s : Str) : List Str := pySplitGo [] s

/-- Python's `' '.join(words)`. -/
def joinSp : List Str → Str
  | [] => []
  | [w] => w
  | w :: ws => w ++ ' ' :: joinSp ws

/-! ## The strptime model -/

/-- `%d` alternatives: `3[01]|[12]\d|0[1-9]|[1-9]`, in regex
backtracking order, each with the value it denotes and the rest of the
input. -/
def altsD : Str → List (Nat × Str)
  | c1 :: c2 :: r =>
    (if c1.toNat = 51 ∧ (c2.toNat = 48 ∨ c2.toNat = 49) then [(30 + digitVal c2, r)] else []) ++
    (if (c1.toNat = 49 ∨ c1.toNat = 50) ∧ (48 ≤ c2.toNat ∧ c2.toNat ≤ 57) then
      [(10 * digitVal c1 + digitVal c2, r)] else []) ++
    (if c1.toNat = 48 ∧ (49 ≤ c2.toNat ∧ c2.toNat ≤ 57) then [(digitVal c2, r)] else []) ++
    (if 49 ≤ c1.toNat ∧ c1.toNat ≤ 57 then [(digitVal c1, c2 :: r)] else [])
  | [c1] => if 49 ≤ c1.toNat ∧ c1.toNat ≤ 57 then [(digitVal c1, [])] else []
  | [] => []

/-- `%m` alternatives: `1[0-2]|0[1-9]|[1-9]`. -/
def altsM : Str → List (Nat × Str)
  | c1 :: c2 :: r =>
    (if c1.toNat = 49 ∧ (48 ≤ c2.toNat ∧ c2.toNat ≤ 50) then [(10 + digitVal c2, r)] else []) ++
    (if c1.toNat = 48 ∧ (49 ≤ c2.toNat ∧ c2.toNat ≤ 57) then [(digitVal c2, r)] else []) ++
    (if 49 ≤ c1.toNat ∧ c1.toNat ≤ 57 then [(digitVal c1, c2 :: r)] else [])
  | [c1] => if 49 ≤ c1.toNat ∧ c1.toNat ≤ 57 then [(digitVal c1, [])] else []
  | [] => []

/-- `%H` alternatives: `2[0-3]|[0-1]\d|\d`. -/
def altsH : Str → List (Nat × Str)
  | c1 :: c2 :: r =>
    (if c1.toNat = 50 ∧ (48 ≤ c2.toNat ∧ c2.toNat ≤ 51) then [(20 + digitVal c2, r)] else []) ++
    (if (c1.toNat = 48 ∨ c1.toNat = 49) ∧ (48 ≤ c2.toNat ∧ c2.toNat ≤ 57) then
      [(10 * digitVal c1 + digitVal c2, r)] else []) ++
    (if 48 ≤ c1.toNat ∧ c1.toNat ≤ 57 then [(digitVal c1, c2 :: r)] else [])
  | [c1] => if 48 ≤ c1.toNat ∧ c1.toNat ≤ 57 then [(digitVal c1, [])] else []
  | [] => []

/-- `%M` alternatives: `[0-5]\d|\d`. -/
def altsMin : Str → List (Nat × Str)
  | c1 :: c2 :: r =>
    (if (48 ≤ c1.toNat ∧ c1.toNat ≤ 53) ∧ (48 ≤ c2.toNat ∧ c2.toNat ≤ 57) then
      [(10 * digitVal c1 + digitVal c2, r)] else []) ++
    (if 48 ≤ c1.toNat ∧ c1.toNat ≤ 57 then [(digitVal c1, c2 :: r)] else [])
  | [c1] => if 48 ≤ c1.toNat ∧ c1.toNat ≤ 57 then [(digitVal c1, [])] else []
  | [] => []

/-- `%Y` alternative: `\d\d\d\d`. -/
def altsY : Str → List (Nat × Str)
  | c1 :: c2 :: c3 :: c4 :: r =>
    if (48 ≤ c1.toNat ∧ c1.toNat ≤ 57) ∧ (48 ≤ c2.toNat ∧ c2.toNat ≤ 57) ∧
       (48 ≤ c3.toNat ∧ c3.toNat ≤ 57) ∧ (48 ≤ c4.toNat ∧ c4.toNat ≤ 57) then
      [(((digitVal c1 * 10 + digitVal c2) * 10 + digitVal c3) * 10 + digitVal c4, r)]
    else []
  | _ => []

/-- A literal space in the format string. -/
def litSp : Str → List Str
  | ' ' :: r => [r]
  | _ => []

/-- A literal colon in the format string. -/
def litCo : Str → List Str
  | ':' :: r => [r]
  | _ => []

/-- strptime's "unconverted data remains" check. -/
def litEnd (s : Str) : List Unit := if s = [] then [()] else []

/-- All parses of the format `%d %m %Y %H:%M` in backtracking order;
the first one consuming the whole input wins. -/
def parse_dmYHM (s : Str) : Option (Nat × Nat × Nat × Nat × Nat) :=
  ((altsD s).flatMap fun dr =>
    (litSp dr.2).flatMap fun r1 =>
    (altsM r1).flatMap fun mr =>
    (litSp mr.2).flatMap fun r2 =>
    (altsY r2).flatMap fun yr =>
    (litSp yr.2).flatMap fun r3 =>
    (altsH r3).flatMap fun hr =>
    (litCo hr.2).flatMap fun r4 =>
    (altsMin r4).flatMap fun mir =>
    (litEnd mir.2).map fun _ => (dr.1, mr.1, yr.1, hr.1, mir.1)).head?

/-- All parses of the format `%d %m %H:%M`, first full parse wins. -/
def parse_dmHM (s : Str) : Option (Nat × Nat × Nat × Nat) :=
  ((altsD s).flatMap fun dr =>
    (litSp dr.2).flatMap fun r1 =>
    (altsM r1).flatMap fun mr =>
    (litSp mr.2).flatMap fun r2 =>
    (altsH r2).flatMap fun hr =>
    (litCo hr.2).flatMap fun r3 =>
    (altsMin r3).flatMap fun mir =>
    (litEnd mir.2).map fun _ => (dr.1, mr.1, hr.1, mir.1)).head?

/-- All parses of the format `%d %m %Y`, first full parse wins. -/
def parse_dmY (s : Str) : Option (Nat × Nat × Nat) :=
  ((altsD s).flatMap fun dr =>
    (litSp dr.2).flatMap fun r1 =>
    (altsM r1).flatMap fun mr =>
    (litSp mr.2).flatMap fun r2 =>
    (altsY r2).flatMap fun yr =>
    (litEnd yr.2).map fun _ => (dr.1, mr.1, yr.1)).head?

/-- Gregorian leap year, as `datetime`'s calendar. -/
def isLeap (y : Nat) : Bool := decide ((y % 4 = 0 ∧ y % 100 ≠ 0) ∨ y % 400 = 0)

def daysInMonth (y m : Nat) : Nat :=
  if m = 2 then (if isLeap y then 29 else 28)
  else if m = 4 ∨ m = 6 ∨ m = 9 ∨ m = 11 then 30
  else 31

/-- The `datetime(...)` constructor's validity check (Python's
MINYEAR/MAXYEAR and day-of-month bounds). -/
def validDate (y m d : Nat) : Bool :=
  decide (1 ≤ y ∧ y ≤ 9999 ∧ 1 ≤ m ∧ m ≤ 12 ∧ 1 ≤ d ∧ d ≤ daysInMonth y m)

/-- `str(datetime(y,m,d,h,mi))` without the trailing `:SS` part. -/
def pyDateTimeStem (y m d h mi : Nat) : Str :=
  pad4 y ++ '-' :: (pad2 m ++ '-' :: (pad2 d ++ ' ' :: (pad2 h ++ ':' :: pad2 mi)))

/-- `str(datetime(y,m,d,h,mi))`; seconds are always zero here. -/
def pyDatetimeStr (y m d h mi : Nat) : Str :=
  pyDateTimeStem y m d h mi ++ ':' :: '0' :: ['0']

/-- `str(date(y,m,d))`. -/
def pyDateStr (y m d : Nat) : Str :=
  pad4 y ++ '-' :: (pad2 m ++ '-' :: pad2 d)

/-! ## The date normalizer (source lines 88-143) -/

/-- The spec's `referenceNow`: the value the source reads through
`datetime.today()` / `datetime.now()`, made an explicit parameter. -/
structure Ref where
  day : Nat
  month : Nat
  year : Nat
deriving DecidableEq, Repr

def get_current_day (ref : Ref) : Nat := ref.day

/-- `'{:%m}'.format(datetime.now())`: zero-padded month. -/
def get_current_month (ref : Ref) : Str := pad2 ref.month

def get_current_year (ref : Ref) : Nat := ref.year

/-- `replace_relative_day_with_absolute`:
`'{} {} {}'.format(absolute_day, get_current_month(), get_current_year())
 + date.replace(relative_day, '')`. -/
def replace_relative_day_with_absolute (date marker : Str) (absDay : Nat) (ref : Ref) : Str :=
  renderNat absDay ++ ' ' ::
    (get_current_month ref ++ ' ' ::
      (renderNat (get_current_year ref) ++ replaceAll marker date))

/-- `convert_relative_date_to_absolute` (source lines 111-116). -/
def convert_relative_date_to_absolute (date : Str) (ref : Ref) : Str :=
  if isSub ("Вчера".data) date then
    replace_relative_day_with_absolute date ("Вчера".data) (get_current_day ref - 1) ref
  else
    replace_relative_day_with_absolute date ("Сегодня".data) (get_current_day ref) ref

/-- The fixed 12-entry month-name vocabulary (source lines 120-122). -/
def monthsMap (tok : Str) : Option Str :=
  if tok = "января".data then some ("1".data)
  else if tok = "февраля".data then some ("2".data)
  else if tok = "марта".data then some ("3".data)
  else if tok = "апреля".data then some ("4".data)
  else if tok = "мая".data then some ("5".data)
  else if tok = "июня".data then some ("6".data)
  else if tok = "июля".data then some ("7".data)
  else if tok = "августа".data then some ("8".data)
  else if tok = "сентября".data then some ("9".data)
  else if tok = "октября".data then some ("10".data)
  else if tok = "ноября".data then some ("11".data)
  else if tok = "декабря".data then some ("12".data)
  else none

/-- `replace_month_name_with_number` (source lines 119-125); `none`
models the Python `IndexError`/`KeyError` on a malformed token list or
an unknown month name. -/
def replace_month_name_with_number (date : Str) : Option Str :=
  let ds := pySplit date
  match ds[1]? with
  | none => none
  | some tok =>
    match monthsMap tok with
    | none => none
    | some num => some (joinSp (ds.set 1 num))

/-- `normalize_date` (source lines 98-108).  `none` models an
exception escaping the function (`ValueError` from `strptime`,
`KeyError`/`IndexError` from the month replacement). -/
def normalize_date (date : Str) (ref : Ref) : Option Str :=
  if isSub ("Вчера".data) date || isSub ("Сегодня".data) date then
    match parse_dmYHM (convert_relative_date_to_absolute date ref) with
    | none => none
    | some (d, m, y, h, mi) =>
      if validDate y m d then some (truncLast3 (pyDatetimeStr y m d h mi)) else none
  else
    match replace_month_name_with_number date with
    | none => none
    | some d2 =>
      if ':' ∈ d2 then
        match parse_dmHM d2 with
        | none => none
        | some (d, m, h, mi) =>
          if validDate 1900 m d then
            if validDate (get_current_year ref) m d then
              some (truncLast3 (pyDatetimeStr (get_current_year ref) m d h mi))
            else none
          else none
      else
        match parse_dmY d2 with
        | none => none
        | some (d, m, y) =>
          if validDate y m d then some (pyDateStr y m d) else none

/-! ## Price extraction (source lines 79-85) -/

/-- Value of a digit string, as Python's `int()` on it. -/
def digitsToInt (ds : Str) : Int :=
  ds.foldl (fun a c => a * 10 + ((c.toNat : Int) - 48)) 0

/-- `get_price`: the raw price text (extracted from the markup by the
BeautifulSoup collaborator) with every non-digit stripped
(`re.sub('[^\d]', '', ...)`), then `int(...)`; `None` when `int`
raises on the empty remainder. -/
def get_price (priceText : Str) : Option Int :=
  let ds := priceText.filter isDig
  if ds.isEmpty then none else some (digitsToInt ds)

/-! ## Fetching, pagination and the ad pipeline (source lines 17-39,
146-185).  The HTTP library and BeautifulSoup are external
collaborators; they enter as oracles: `net` maps a page number to the
response `requests.get` returns for that page's URL, `noResults`
models `is_page_exists`'s markup test for the "Ничего не нашлось по
запросу" block, and `adsOf` models `get_ads_from_page`'s node
extraction. -/

/-- The known block page (source docstring and line 175). -/
def blockedUrl : Str := "https://www.avito.ru/blocked".data

/-- Errors surfaced by the model: `ValueError` from
`generate_search_url`, the `TooManyRequests` exception from
`fetch_page`, and the spec's `UnrecognizedFormat` for the
`KeyError`/`IndexError`/`ValueError` family escaping
`normalize_date`. -/
inductive PyErr
  | invalidParameter
  | tooManyRequests
  | unrecognizedFormat
deriving DecidableEq, Repr

/-- What `requests.get` hands back: the final URL after redirects and
the body text. -/
structure Response where
  url : Str
  text : Str
deriving DecidableEq, Repr

/-- `fetch_page` (source lines 169-177): raise `TooManyRequests` when
the final URL is the block page, otherwise return the body text.  The
check uses only the final URL, never the body. -/
def fetch_page (r : Response) : Except PyErr Str :=
  if r.url = blockedUrl then .error .tooManyRequests else .ok r.text

/-- Observable behaviour of one `get_pages` run: pages yielded, page
numbers fetched (in order), and the exception ending the run, if
any. -/
structure PagesTrace where
  yielded : List Str
  fetched : List Nat
  error : Option PyErr
deriving DecidableEq, Repr

/-- `get_pages` (source lines 146-157), starting at page `n`: fetch
page `n`; while `is_page_exists`, yield it and fetch the next page.
The fuel only bounds the recursion; every theorem supplies enough. -/
def get_pagesAux (net : Nat → Response) (noResults : Str → Bool) (n fuel : Nat) : PagesTrace :=
  match fuel with
  | 0 => ⟨[], [], none⟩
  | f + 1 =>
    match fetch_page (net n) with
    | .error e => ⟨[], [n], some e⟩
    | .ok page =>
      if noResults page then ⟨[], [n], none⟩
      else
        let t := get_pagesAux net noResults (n + 1) f
        ⟨page :: t.yielded, n :: t.fetched, t.error⟩

def get_pages (net : Nat → Response) (noResults : Str → Bool) (fuel : Nat) : PagesTrace :=
  get_pagesAux net noResults 1 fuel

/-- A raw ad node, reduced to the four texts the field-extraction
delegates (`get_title`, `get_link`, the price node, `get_date`) read
from it. -/
structure RawAd where
  title : Str
  link : Str
  priceText : Str
  dateText : Str
deriving DecidableEq, Repr

/-- The output record of `agregate_ad_info`. -/
structure AdRecord where
  title : Str
  link : Str
  price : Option Int
  date : Str
deriving DecidableEq, Repr

/-- `agregate_ad_info` (source lines 61-67); `none` models the
exception escaping when `normalize_date` fails on the raw date. -/
def agregate_ad_info (ad : RawAd) (ref : Ref) : Option AdRecord :=
  match normalize_date ad.dateText ref with
  | none => none
  | some d => some ⟨ad.title, ad.link, get_price ad.priceText, d⟩

/-- Yield records for the ads of one page, in order, until the first
aggregation failure; the flag records whether a failure occurred. -/
def aggregateList (ref : Ref) : List RawAd → List AdRecord × Bool
  | [] => ([], false)
  | ad :: tl =>
    match agregate_ad_info ad ref with
    | none => ([], true)
    | some r =>
      let (rs, e) := aggregateList ref tl
      (r :: rs, e)

/-- Observable behaviour of one `get_all_ads` run. -/
structure AdsTrace where
  records : List AdRecord
  fetched : List Nat
  error : Option PyErr
deriving DecidableEq, Repr

/-- The `get_all_ads` loop (source lines 34-39) fused with the lazy
`get_pages` generator it consumes, starting at page `n`: fetch page
`n`; stop on the nothing-found markup; stop (`break`) when no ad node
is extracted; otherwise yield the aggregated records and continue with
page `n + 1`.  A `TooManyRequests` from the fetch or a normalization
failure ends the run with that error after the records already
yielded. -/
def get_all_adsAux (net : Nat → Response) (noResults : Str → Bool)
    (adsOf : Str → List RawAd) (ref : Ref) (n fuel : Nat) : AdsTrace :=
  match fuel with
  | 0 => ⟨[], [], none⟩
  | f + 1 =>
    match fetch_page (net n) with
    | .error e => ⟨[], [n], some e⟩
    | .ok page =>
      if noResults page then ⟨[], [n], none⟩
      else
        match adsOf page with
        | [] => ⟨[], [n], none⟩
        | a :: tl =>
          match aggregateList ref (a :: tl) with
          | (rs, true) => ⟨rs, [n], some .unrecognizedFormat⟩
          | (rs, false) =>
            let t := get_all_adsAux net noResults adsOf ref (n + 1) f
            ⟨rs ++ t.records, n :: t.fetched, t.error⟩

/-! ## URL construction (source lines 42-58) -/

/-- The `sort_values` dict lookup: `None` maps to `'101'`; a key
outside the dict means the `ValueError` is raised. -/
def sort_values (sort_by : Option Str) : Option Str :=
  match sort_by with
  | none => some ("101".data)
  | some t =>
    if t = "date".data then some ("104".data)
    else if t = "price".data then some ("1".data)
    else if t = "price_desc".data then some ("2".data)
    else none

/-- The `owners` dict lookup: `None` maps to `'0'`. -/
def owners (owner : Option Str) : Option Str :=
  match owner with
  | none => some ("0".data)
  | some t =>
    if t = "private".data then some ("1".data)
    else if t = "company".data then some ("2".data)
    else none

/-- `generate_search_url` (source lines 42-58).  `quoteFn` is the
stdlib `urllib.parse.quote` collaborator.  `int(by_title)` and
`int(with_images)` become `'1'`/`'0'`. -/
def generate_search_url (quoteFn : Str → Str) (query : Str) (sort_by : Option Str)
    (by_title with_images : Bool) (owner : Option Str) : Except PyErr Str :=
  match sort_values sort_by with
  | none => .error .invalidParameter
  | some sv =>
    match owners owner with
    | none => .error .invalidParameter
    | some ov =>
      .ok ("https://www.avito.ru/moskva?s=".data ++ sv
        ++ "&bt=".data ++ (if by_title then "1".data else "0".data)
        ++ "&q=".data ++ quoteFn query
        ++ "&i=".data ++ (if with_images then "1".data else "0".data)
        ++ "&user=".data ++ ov
        ++ "&p={}".data)

/-- `get_all_ads` (source lines 17-39): build the search URL first —
an invalid sort/owner raises before any page is fetched — then drive
the page/ad loop. -/
def get_all_ads (quoteFn : Str → Str) (net : Nat → Response) (noResults : Str → Bool)
    (adsOf : Str → List RawAd) (query : Str) (sort_by : Option Str)
    (by_title with_images : Bool) (owner : Option Str) (ref : Ref) (fuel : Nat) : AdsTrace :=
  match generate_search_url quoteFn query sort_by by_title with_images owner with
  | .error e => ⟨[], [], some e⟩
  | .ok _ => get_all_adsAux net noResults adsOf ref 1 fuel

/-- Modelled from the spec: the `SearchRequest.sort` enumeration
`{relevance, date, price_asc, price_desc}` and how each value is
passed to the source's `sort_by` argument (`relevance` is the default
`None`, `price_asc` is the source's `'price'` key). -/
inductive SortBy
  | relevance
  | date
  | price_asc
  | price_desc
deriving DecidableEq, Repr

def sortByArg : SortBy → Option Str
  | .relevance => none
  | .date => some ("date".data)
  | .price_asc => some ("price".data)
  | .price_desc => some ("price_desc".data)

/-- Modelled from the spec: the `SearchRequest.owner` enumeration
`{any, private, company}` and its mapping to the `owner` argument. -/
inductive OwnerKind
  | anyOwner
  | privateOwner
  | companyOwner
deriving DecidableEq, Repr

def ownerArg : OwnerKind → Option Str
  | .anyOwner => none
  | .privateOwner => some ("private".data)
  | .companyOwner => some ("company".data)

/-! ## Canonical output shapes -/

/-- `YYYY-MM-DD HH:MM` exactly. -/
def isCanonicalDateTime : Str → Bool
  | [y1, y2, y3, y4, '-', m1, m2, '-', d1, d2, ' ', h1, h2, ':', n1, n2] =>
    isDig y1 && isDig y2 && isDig y3 && isDig y4 && isDig m1 && isDig m2 &&
    isDig d1 && isDig d2 && isDig h1 && isDig h2 && isDig n1 && isDig n2
  | _ => false

/-- `YYYY-MM-DD` exactly. -/
def isCanonicalDate : Str → Bool
  | [y1, y2, y3, y4, '-', m1, m2, '-', d1, d2] =>
    isDig y1 && isDig y2 && isDig y3 && isDig y4 && isDig m1 && isDig m2 &&
    isDig d1 && isDig d2
  | _ => false

/-- The rendered month name for month number `m` (1-12). -/
def monthName : Nat → Str
  | 1 => "января".data
  | 2 => "февраля".data
  | 3 => "марта".data
  | 4 => "апреля".data
  | 5 => "мая".data
  | 6 => "июня".data
  | 7 => "июля".data
  | 8 => "августа".data
  | 9 => "сентября".data
  | 10 => "октября".data
  | 11 => "ноября".data
  | 12 => "декабря".data
  | _ => []

/-! ## Rendering lemmas -/

theorem renderNatAux_irrel : ∀ f f' n, n < f → n < f' → renderNatAux f n = renderNatAux f' n := by
  intro f
  induction f with
  | zero => intro f' n h _; omega
  | succ f ih =>
    intro f' n h h'
    cases f' with
    | zero => omega
    | succ f' =>
      simp only [renderNatAux]
      by_cases h10 : n < 10
      · simp [h10]
      · simp only [if_neg h10]
        rw [ih f' (n / 10) (by omega) (by omega)]

theorem renderNat_eq (n : Nat) :
    renderNat n =
      if n < 10 then [Nat.digitChar n]
      else renderNat (n / 10) ++ [Nat.digitChar (n % 10)] := by
  have step : renderNatAux (n + 1) n =
      if n < 10 then [Nat.digitChar n]
      else renderNatAux n (n / 10) ++ [Nat.digitChar (n % 10)] := rfl
  unfold renderNat
  rw [step]
  by_cases h : n < 10
  · rw [if_pos h, if_pos h]
  · rw [if_neg h, if_neg h, renderNatAux_irrel n (n / 10 + 1) (n / 10) (by omega) (by omega)]

theorem renderNat_lt10 (n : Nat) (h : n < 10) : renderNat n = [Nat.digitChar n] := by
  rw [renderNat_eq]; simp [h]

theorem renderNat_two (n : Nat) (h1 : 10 ≤ n) (h2 : n < 100) :
    renderNat n = [Nat.digitChar (n / 10), Nat.digitChar (n % 10)] := by
  rw [renderNat_eq, if_neg (by omega), renderNat_lt10 _ (by omega)]; rfl

theorem renderNat_three (n : Nat) (h1 : 100 ≤ n) (h2 : n < 1000) :
    renderNat n = [Nat.digitChar (n / 100), Nat.digitChar (n / 10 % 10), Nat.digitChar (n % 10)] := by
  rw [renderNat_eq, if_neg (by omega), renderNat_two (n / 10) (by omega) (by omega)]
  have e : n / 10 / 10 = n / 100 := by omega
  rw [e]; rfl

theorem renderNat_four (n : Nat) (h1 : 1000 ≤ n) (h2 : n < 10000) :
    renderNat n = [Nat.digitChar (n / 1000), Nat.digitChar (n / 100 % 10),
      Nat.digitChar (n / 10 % 10), Nat.digitChar (n % 10)] := by
  rw [renderNat_eq, if_neg (by omega), renderNat_three (n / 10) (by omega) (by omega)]
  have e1 : n / 10 / 100 = n / 1000 := by omega
  have e2 : n / 10 / 10 % 10 = n / 100 % 10 := by omega
  rw [e1, e2]; rfl

theorem digitChar_toNat (k : Nat) (h : k ≤ 9) : (Nat.digitChar k).toNat = 48 + k := by
  interval_cases k <;> rfl

theorem isDig_digitChar (k : Nat) (h : k ≤ 9) : isDig (Nat.digitChar k) = true := by
  simp only [isDig, digitChar_toNat k h, decide_eq_true_eq]; omega

theorem digitVal_digitChar (k : Nat) (h : k ≤ 9) : digitVal (Nat.digitChar k) = k := by
  simp [digitVal, digitChar_toNat k h]

theorem mem_renderNatAux_isDig : ∀ f n c, c ∈ renderNatAux f n → isDig c = true := by
  intro f
  induction f with
  | zero => intro n c h; simp [renderNatAux] at h
  | succ f ih =>
    intro n c h
    simp only [renderNatAux] at h
    by_cases h10 : n < 10
    · rw [if_pos h10] at h
      simp only [List.mem_singleton] at h
      subst h; exact isDig_digitChar n (by omega)
    · rw [if_neg h10] at h
      rcases List.mem_append.1 h with h | h
      · exact ih _ _ h
      · simp only [List.mem_singleton] at h
        subst h; exact isDig_digitChar _ (by omega)

theorem mem_renderNat_isDig (n : Nat) (c : Char) (h : c ∈ renderNat n) : isDig c = true :=
  mem_renderNatAux_isDig _ _ _ h

theorem mem_pad2_isDig (n : Nat) (c : Char) (h : c ∈ pad2 n) : isDig c = true := by
  unfold pad2 at h
  by_cases h10 : n < 10
  · rw [if_pos h10] at h
    rcases List.mem_cons.1 h with h | h
    · subst h; decide
    · exact mem_renderNat_isDig _ _ h
  · rw [if_neg h10] at h; exact mem_renderNat_isDig _ _ h

theorem pad2_eq (n : Nat) (h : n ≤ 99) :
    ∃ c1 c2, pad2 n = [c1, c2] ∧ isDig c1 = true ∧ isDig c2 = true := by
  by_cases h10 : n < 10
  · refine ⟨'0', Nat.digitChar n, ?_, by decide, isDig_digitChar n (by omega)⟩
    simp [pad2, h10, renderNat_lt10 n h10]
  · refine ⟨Nat.digitChar (n / 10), Nat.digitChar (n % 10), ?_,
      isDig_digitChar _ (by omega), isDig_digitChar _ (by omega)⟩
    simp [pad2, h10, renderNat_two n (by omega) (by omega)]

theorem pad4_eq (n : Nat) (h1 : 1 ≤ n) (h2 : n ≤ 9999) :
    ∃ c1 c2 c3 c4, pad4 n = [c1, c2, c3, c4] ∧
      isDig c1 = true ∧ isDig c2 = true ∧ isDig c3 = true ∧ isDig c4 = true := by
  unfold pad4
  by_cases ha : n < 10
  · refine ⟨'0', '0', '0', Nat.digitChar n, ?_, by decide, by decide, by decide,
      isDig_digitChar n (by omega)⟩
    simp [ha, renderNat_lt10 n ha]
  · by_cases hb : n < 100
    · refine ⟨'0', '0', Nat.digitChar (n / 10), Nat.digitChar (n % 10), ?_, by decide, by decide,
        isDig_digitChar _ (by omega), isDig_digitChar _ (by omega)⟩
      simp [ha, hb, renderNat_two n (by omega) hb]
    · by_cases hc : n < 1000
      · refine ⟨'0', Nat.digitChar (n / 100), Nat.digitChar (n / 10 % 10), Nat.digitChar (n % 10),
          ?_, by decide, isDig_digitChar _ (by omega), isDig_digitChar _ (by omega),
          isDig_digitChar _ (by omega)⟩
        simp [ha, hb, hc, renderNat_three n (by omega) hc]
      · refine ⟨Nat.digitChar (n / 1000), Nat.digitChar (n / 100 % 10),
          Nat.digitChar (n / 10 % 10), Nat.digitChar (n % 10), ?_,
          isDig_digitChar _ (by omega), isDig_digitChar _ (by omega),
          isDig_digitChar _ (by omega), isDig_digitChar _ (by omega)⟩
        simp [ha, hb, hc, renderNat_four n (by omega) (by omega)]

theorem pad4_renderNat (n : Nat) (h1 : 1000 ≤ n) (h2 : n ≤ 9999) : pad4 n = renderNat n := by
  unfold pad4
  rw [if_neg (by omega), if_neg (by omega), if_neg (by omega)]

/-- A digit character differs from any non-digit character. -/
theorem isDig_ne (c d : Char) (h : isDig c = true) (hd : isDig d = false) : c ≠ d := by
  intro he; subst he; rw [h] at hd; exact Bool.noConfusion hd

/-! ## Substring / replace / split lemmas -/

theorem isPre_append (p r : Str) : isPre p (p ++ r) = true := by
  induction p with
  | nil => rfl
  | cons a p ih => simp [isPre, ih]

theorem isSub_append_self (p r : Str) : isSub p (p ++ r) = true := by
  cases p with
  | nil =>
    cases r with
    | nil => rfl
    | cons c t => simp [isSub, isPre]
  | cons a p =>
    have h := isPre_append (a :: p) r
    simp only [List.cons_append] at h
    simp [isSub, h]

theorem isSub_eq_false (p0 : Char) (p s : Str) (h : ∀ c ∈ s, c ≠ p0) :
    isSub (p0 :: p) s = false := by
  induction s with
  | nil => simp [isSub]
  | cons c r ih =>
    have hc : p0 ≠ c := fun he => h c (by simp) he.symm
    simp only [isSub, Bool.or_eq_false_iff]
    constructor
    · simp [isPre, hc]
    · exact ih (fun c hc' => h c (by simp [hc']))

theorem replaceAllAux_irrel (old : Str) : ∀ f f' s, s.length ≤ f → s.length ≤ f' →
    replaceAllAux old f s = replaceAllAux old f' s := by
  intro f
  induction f with
  | zero =>
    intro f' s h _
    cases s with
    | nil => cases f' <;> rfl
    | cons c r => simp at h
  | succ f ih =>
    intro f' s h h'
    cases s with
    | nil => cases f' <;> rfl
    | cons c r =>
      cases f' with
      | zero => simp at h'
      | succ f' =>
        simp only [replaceAllAux]
        by_cases hp : old ≠ [] ∧ isPre old (c :: r) = true
        · rw [if_pos hp, if_pos hp]
          exact ih f' _ (by simp at h ⊢; omega) (by simp at h' ⊢; omega)
        · rw [if_neg hp, if_neg hp]
          rw [ih f' r (by simp at h; omega) (by simp at h'; omega)]

theorem replaceAllAux_not_sub (old : Str) :
    ∀ f s, s.length ≤ f → isSub old s = false → replaceAllAux old f s = s := by
  intro f
  induction f with
  | zero =>
    intro s hl _
    cases s with
    | nil => rfl
    | cons c r => simp at hl
  | succ f ih =>
    intro s hl hs
    cases s with
    | nil => rfl
    | cons c r =>
      simp only [isSub, Bool.or_eq_false_iff] at hs
      simp only [replaceAllAux]
      rw [if_neg (fun hp => by rw [hs.1] at hp; exact Bool.noConfusion hp.2)]
      rw [ih r (by simp at hl; omega) hs.2]

theorem replaceAll_of_not_sub (old s : Str) (hs : isSub old s = false) :
    replaceAll old s = s :=
  replaceAllAux_not_sub old s.length s le_rfl hs

theorem replaceAll_self_append (a : Char) (p r : Str) :
    replaceAll (a :: p) ((a :: p) ++ r) = replaceAll (a :: p) r := by
  unfold replaceAll
  rw [show ((a :: p) ++ r).length = p.length + r.length + 1 from by
    simp only [List.length_append, List.length_cons]; omega]
  have hpre : isPre (a :: p) (a :: (p ++ r)) = true := by
    have h := isPre_append (a :: p) r
    simpa using h
  simp only [List.cons_append, replaceAllAux]
  rw [if_pos ⟨List.cons_ne_nil a p, hpre⟩]
  have hd : List.drop ((a :: p).length - 1) (p ++ r) = r := by
    simp only [List.length_cons, Nat.add_sub_cancel]
    exact List.drop_left p r
  rw [hd]
  exact replaceAllAux_irrel (a :: p) (p.length + r.length) r.length r (by omega) le_rfl

theorem pySplitGo_word : ∀ (w cur r : Str), (∀ c ∈ w, c.isWhitespace = false) →
    pySplitGo cur (w ++ r) = pySplitGo (cur ++ w) r := by
  intro w
  induction w with
  | nil => intro cur r _; simp
  | cons a w ih =>
    intro cur r h
    have ha : a.isWhitespace = false := h a (by simp)
    simp only [List.cons_append, pySplitGo, ha, Bool.false_eq_true, if_false, List.append_eq]
    have hi := ih (cur ++ [a]) r (fun c hc => h c (List.mem_cons_of_mem a hc))
    rw [hi, List.append_assoc]
    simp

theorem pySplitGo_space (cur r : Str) :
    pySplitGo cur (' ' :: r) = if cur = [] then pySplitGo [] r else cur :: pySplitGo [] r := by
  have hw : (' ').isWhitespace = true := rfl
  simp [pySplitGo, hw]

theorem pySplitGo_last (w : Str) (hw : w ≠ []) (n : ∀ c ∈ w, c.isWhitespace = false) :
    pySplitGo [] w = [w] := by
  have h := pySplitGo_word w [] [] n
  simp only [List.append_nil, List.nil_append] at h
  rw [h]
  simp [pySplitGo, hw]

theorem pySplit_three (w1 w2 w3 : Str) (h1 : w1 ≠ []) (h2 : w2 ≠ []) (h3 : w3 ≠ [])
    (n1 : ∀ c ∈ w1, c.isWhitespace = false) (n2 : ∀ c ∈ w2, c.isWhitespace = false)
    (n3 : ∀ c ∈ w3, c.isWhitespace = false) :
    pySplit (w1 ++ ' ' :: (w2 ++ ' ' :: w3)) = [w1, w2, w3] := by
  unfold pySplit
  rw [pySplitGo_word w1 [] _ n1]
  simp only [List.nil_append]
  rw [pySplitGo_space, if_neg h1, pySplitGo_word w2 [] _ n2]
  simp only [List.nil_append]
  rw [pySplitGo_space, if_neg h2, pySplitGo_last w3 h3 n3]

theorem joinSp_three (a b c : Str) : joinSp [a, b, c] = a ++ ' ' :: (b ++ ' ' :: c) := rfl

/-! ## strptime roundtrip lemmas: rendered numbers are parsed back,
and they head the candidate list. -/

theorem altsD_render (d : Nat) (h1 : 1 ≤ d) (h2 : d ≤ 31) (r : Str) :
    ∃ t, altsD (renderNat d ++ ' ' :: r) = (d, ' ' :: r) :: t := by
  interval_cases d <;> exact ⟨_, rfl⟩

theorem altsM_pad2 (m : Nat) (h1 : 1 ≤ m) (h2 : m ≤ 12) (r : Str) :
    ∃ t, altsM (pad2 m ++ ' ' :: r) = (m, ' ' :: r) :: t := by
  interval_cases m <;> exact ⟨_, rfl⟩

theorem altsM_render (m : Nat) (h1 : 1 ≤ m) (h2 : m ≤ 12) (r : Str) :
    ∃ t, altsM (renderNat m ++ ' ' :: r) = (m, ' ' :: r) :: t := by
  interval_cases m <;> exact ⟨_, rfl⟩

theorem altsH_pad2 (h : Nat) (hh : h ≤ 23) (r : Str) :
    ∃ t, altsH (pad2 h ++ ':' :: r) = (h, ':' :: r) :: t := by
  interval_cases h <;> exact ⟨_, rfl⟩

theorem altsMin_pad2 (mi : Nat) (hmi : mi ≤ 59) :
    ∃ t, altsMin (pad2 mi) = (mi, []) :: t := by
  interval_cases mi <;> exact ⟨_, rfl⟩

theorem altsY_render (y : Nat) (h1 : 1000 ≤ y) (h2 : y ≤ 9999) (r : Str) :
    altsY (renderNat y ++ r) = [(y, r)] := by
  rw [renderNat_four y h1 (by omega)]
  have t1 := digitChar_toNat (y / 1000) (by omega)
  have t2 := digitChar_toNat (y / 100 % 10) (by omega)
  have t3 := digitChar_toNat (y / 10 % 10) (by omega)
  have t4 := digitChar_toNat (y % 10) (by omega)
  have v1 := digitVal_digitChar (y / 1000) (by omega)
  have v2 := digitVal_digitChar (y / 100 % 10) (by omega)
  have v3 := digitVal_digitChar (y / 10 % 10) (by omega)
  have v4 := digitVal_digitChar (y % 10) (by omega)
  simp only [List.cons_append, List.nil_append, altsY]
  rw [if_pos (by rw [t1, t2, t3, t4]; omega)]
  rw [v1, v2, v3, v4]
  rw [show ((y / 1000 * 10 + y / 100 % 10) * 10 + y / 10 % 10) * 10 + y % 10 = y from by omega]

theorem parse_dmYHM_render (D M Y h mi : Nat) (hD1 : 1 ≤ D) (hD2 : D ≤ 31)
    (hM1 : 1 ≤ M) (hM2 : M ≤ 12) (hY1 : 1000 ≤ Y) (hY2 : Y ≤ 9999)
    (hh : h ≤ 23) (hmi : mi ≤ 59) :
    parse_dmYHM (renderNat D ++ ' ' ::
        (pad2 M ++ ' ' :: (renderNat Y ++ ' ' :: (pad2 h ++ ':' :: pad2 mi)))) =
      some (D, M, Y, h, mi) := by
  obtain ⟨t1, e1⟩ := altsD_render D hD1 hD2
    (pad2 M ++ ' ' :: (renderNat Y ++ ' ' :: (pad2 h ++ ':' :: pad2 mi)))
  obtain ⟨t2, e2⟩ := altsM_pad2 M hM1 hM2 (renderNat Y ++ ' ' :: (pad2 h ++ ':' :: pad2 mi))
  have e3 := altsY_render Y hY1 hY2 (' ' :: (pad2 h ++ ':' :: pad2 mi))
  obtain ⟨t4, e4⟩ := altsH_pad2 h hh (pad2 mi)
  obtain ⟨t5, e5⟩ := altsMin_pad2 mi hmi
  simp [parse_dmYHM, e1, e2, e3, e4, e5, litSp, litCo, litEnd]

theorem parse_dmHM_render (D M h mi : Nat) (hD1 : 1 ≤ D) (hD2 : D ≤ 31)
    (hM1 : 1 ≤ M) (hM2 : M ≤ 12) (hh : h ≤ 23) (hmi : mi ≤ 59) :
    parse_dmHM (renderNat D ++ ' ' :: (renderNat M ++ ' ' :: (pad2 h ++ ':' :: pad2 mi))) =
      some (D, M, h, mi) := by
  obtain ⟨t1, e1⟩ := altsD_render D hD1 hD2 (renderNat M ++ ' ' :: (pad2 h ++ ':' :: pad2 mi))
  obtain ⟨t2, e2⟩ := altsM_render M hM1 hM2 (pad2 h ++ ':' :: pad2 mi)
  obtain ⟨t4, e4⟩ := altsH_pad2 h hh (pad2 mi)
  obtain ⟨t5, e5⟩ := altsMin_pad2 mi hmi
  simp [parse_dmHM, e1, e2, e4, e5, litSp, litCo, litEnd]

theorem parse_dmY_render (D M Y : Nat) (hD1 : 1 ≤ D) (hD2 : D ≤ 31)
    (hM1 : 1 ≤ M) (hM2 : M ≤ 12) (hY1 : 1000 ≤ Y) (hY2 : Y ≤ 9999) :
    parse_dmY (renderNat D ++ ' ' :: (renderNat M ++ ' ' :: renderNat Y)) =
      some (D, M, Y) := by
  obtain ⟨t1, e1⟩ := altsD_render D hD1 hD2 (renderNat M ++ ' ' :: renderNat Y)
  obtain ⟨t2, e2⟩ := altsM_render M hM1 hM2 (renderNat Y)
  have e3 := altsY_render Y hY1 hY2 []
  simp only [List.append_nil] at e3
  simp [parse_dmY, e1, e2, e3, litSp, litEnd]

/-- Day `0`: no `%d` alternative matches `'0'` followed by a space, so
the whole parse fails (Python raises `ValueError`). -/
theorem parse_dmYHM_zero (r : Str) : parse_dmYHM ('0' :: ' ' :: r) = none := by
  simp [parse_dmYHM, altsD]

/-! ## strptime soundness: parsed components are in the directive
ranges. -/

theorem mem_of_head? {α : Type} {l : List α} {a : α} (h : l.head? = some a) : a ∈ l := by
  cases l with
  | nil => simp at h
  | cons x t => simp at h; simp [h]

theorem altsD_mem : ∀ (s : Str) (p : Nat × Str), p ∈ altsD s → 1 ≤ p.1 ∧ p.1 ≤ 31 := by
  intro s p h
  match s with
  | [] => simp [altsD] at h
  | [c1] =>
    simp only [altsD] at h
    split at h
    · simp only [List.mem_singleton] at h
      subst h; simp only [digitVal]; omega
    · simp at h
  | c1 :: c2 :: rr =>
    simp only [altsD, List.mem_append] at h
    rcases h with ((h | h) | h) | h <;> split at h <;>
      simp only [List.mem_singleton, List.not_mem_nil] at h <;>
      (subst h; simp only [digitVal]; omega)

theorem altsM_mem : ∀ (s : Str) (p : Nat × Str), p ∈ altsM s → 1 ≤ p.1 ∧ p.1 ≤ 12 := by
  intro s p h
  match s with
  | [] => simp [altsM] at h
  | [c1] =>
    simp only [altsM] at h
    split at h
    · simp only [List.mem_singleton] at h
      subst h; simp only [digitVal]; omega
    · simp at h
  | c1 :: c2 :: rr =>
    simp only [altsM, List.mem_append] at h
    rcases h with (h | h) | h <;> split at h <;>
      simp only [List.mem_singleton, List.not_mem_nil] at h <;>
      (subst h; simp only [digitVal]; omega)

theorem altsH_mem : ∀ (s : Str) (p : Nat × Str), p ∈ altsH s → p.1 ≤ 23 := by
  intro s p h
  match s with
  | [] => simp [altsH] at h
  | [c1] =>
    simp only [altsH] at h
    split at h
    · simp only [List.mem_singleton] at h
      subst h; simp only [digitVal]; omega
    · simp at h
  | c1 :: c2 :: rr =>
    simp only [altsH, List.mem_append] at h
    rcases h with (h | h) | h <;> split at h <;>
      simp only [List.mem_singleton, List.not_mem_nil] at h <;>
      (subst h; simp only [digitVal]; omega)

theorem altsMin_mem : ∀ (s : Str) (p : Nat × Str), p ∈ altsMin s → p.1 ≤ 59 := by
  intro s p h
  match s with
  | [] => simp [altsMin] at h
  | [c1] =>
    simp only [altsMin] at h
    split at h
    · simp only [List.mem_singleton] at h
      subst h; simp only [digitVal]; omega
    · simp at h
  | c1 :: c2 :: rr =>
    simp only [altsMin, List.mem_append] at h
    rcases h with h | h <;> split at h <;>
      simp only [List.mem_singleton, List.not_mem_nil] at h <;>
      (subst h; simp only [digitVal]; omega)

theorem altsY_mem : ∀ (s : Str) (p : Nat × Str), p ∈ altsY s → p.1 ≤ 9999 := by
  intro s p h
  match s with
  | [] => simp [altsY] at h
  | [c1] => simp [altsY] at h
  | [c1, c2] => simp [altsY] at h
  | [c1, c2, c3] => simp [altsY] at h
  | c1 :: c2 :: c3 :: c4 :: rr =>
    simp only [altsY] at h
    split at h
    · simp only [List.mem_singleton] at h
      subst h; simp only [digitVal]; omega
    · simp at h

theorem parse_dmYHM_sound (s : Str) (d m y h mi : Nat)
    (hp : parse_dmYHM s = some (d, m, y, h, mi)) :
    1 ≤ d ∧ d ≤ 31 ∧ 1 ≤ m ∧ m ≤ 12 ∧ y ≤ 9999 ∧ h ≤ 23 ∧ mi ≤ 59 := by
  unfold parse_dmYHM at hp
  have hm0 := mem_of_head? hp
  simp only [List.mem_flatMap, List.mem_map] at hm0
  obtain ⟨dr, hdr, r1, _, mr, hmr, r2, _, yr, hyr, r3, _, hrr, hhr, r4, _, mir, hmir, u, _,
    heq⟩ := hm0
  simp only [Prod.mk.injEq] at heq
  obtain ⟨e1, e2, e3, e4, e5⟩ := heq
  subst e1; subst e2; subst e3; subst e4; subst e5
  exact ⟨(altsD_mem s dr hdr).1, (altsD_mem s dr hdr).2, (altsM_mem r1 mr hmr).1,
    (altsM_mem r1 mr hmr).2, altsY_mem r2 yr hyr, altsH_mem r3 hrr hhr,
    altsMin_mem r4 mir hmir⟩

theorem parse_dmHM_sound (s : Str) (d m h mi : Nat)
    (hp : parse_dmHM s = some (d, m, h, mi)) :
    1 ≤ d ∧ d ≤ 31 ∧ 1 ≤ m ∧ m ≤ 12 ∧ h ≤ 23 ∧ mi ≤ 59 := by
  unfold parse_dmHM at hp
  have hm0 := mem_of_head? hp
  simp only [List.mem_flatMap, List.mem_map] at hm0
  obtain ⟨dr, hdr, r1, _, mr, hmr, r2, _, hrr, hhr, r3, _, mir, hmir, u, _, heq⟩ := hm0
  simp only [Prod.mk.injEq] at heq
  obtain ⟨e1, e2, e3, e4⟩ := heq
  subst e1; subst e2; subst e3; subst e4
  exact ⟨(altsD_mem s dr hdr).1, (altsD_mem s dr hdr).2, (altsM_mem r1 mr hmr).1,
    (altsM_mem r1 mr hmr).2, altsH_mem r2 hrr hhr, altsMin_mem r3 mir hmir⟩

theorem parse_dmY_sound (s : Str) (d m y : Nat)
    (hp : parse_dmY s = some (d, m, y)) :
    1 ≤ d ∧ d ≤ 31 ∧ 1 ≤ m ∧ m ≤ 12 ∧ y ≤ 9999 := by
  unfold parse_dmY at hp
  have hm0 := mem_of_head? hp
  simp only [List.mem_flatMap, List.mem_map] at hm0
  obtain ⟨dr, hdr, r1, _, mr, hmr, r2, _, yr, hyr, u, _, heq⟩ := hm0
  simp only [Prod.mk.injEq] at heq
  obtain ⟨e1, e2, e3⟩ := heq
  subst e1; subst e2; subst e3
  exact ⟨(altsD_mem s dr hdr).1, (altsD_mem s dr hdr).2, (altsM_mem r1 mr hmr).1,
    (altsM_mem r1 mr hmr).2, altsY_mem r2 yr hyr⟩

/-! ## Character classification -/

theorem char_toNat_inj (c d : Char) (h : c.toNat = d.toNat) : c = d := by
  apply Char.eq_of_val_eq
  exact UInt32.toNat.inj h

theorem exists_digitChar_of_isDig (c : Char) (h : isDig c = true) :
    ∃ k, k ≤ 9 ∧ c = Nat.digitChar k := by
  simp only [isDig, decide_eq_true_eq] at h
  refine ⟨c.toNat - 48, by omega, ?_⟩
  apply char_toNat_inj
  rw [digitChar_toNat _ (by omega)]
  omega

theorem isDig_char_facts (c : Char) (h : isDig c = true) :
    c.isWhitespace = false ∧ c ≠ 'В' ∧ c ≠ 'С' ∧ c ≠ ':' ∧ c ≠ ' ' ∧ c ≠ '-' := by
  obtain ⟨k, hk, rfl⟩ := exists_digitChar_of_isDig c h
  interval_cases k <;> exact ⟨rfl, by decide, by decide, by decide, by decide, by decide⟩

/-! ## Calendar and output shape -/

theorem daysInMonth_le_31 (y m : Nat) : daysInMonth y m ≤ 31 := by
  unfold daysInMonth
  split
  · split <;> omega
  · split <;> omega

theorem truncLast3_append (s : Str) (a b c : Char) : truncLast3 (s ++ [a, b, c]) = s := by
  unfold truncLast3
  rw [show (s ++ [a, b, c]).length - 3 = s.length from by
    simp only [List.length_append, List.length_cons, List.length_nil]; omega]
  exact List.take_left s [a, b, c]

theorem stem_shape (y m d h mi : Nat) (hy1 : 1 ≤ y) (hy2 : y ≤ 9999) (hm : m ≤ 99)
    (hd : d ≤ 99) (hh : h ≤ 99) (hmi : mi ≤ 99) :
    isCanonicalDateTime (pyDateTimeStem y m d h mi) = true := by
  obtain ⟨y1, y2, y3, y4, hy, g1, g2, g3, g4⟩ := pad4_eq y hy1 hy2
  obtain ⟨m1, m2, hmm, i1, i2⟩ := pad2_eq m hm
  obtain ⟨e1, e2, hee, j1, j2⟩ := pad2_eq d hd
  obtain ⟨k1, k2, hkk, l1, l2⟩ := pad2_eq h hh
  obtain ⟨n1, n2, hnn, o1, o2⟩ := pad2_eq mi hmi
  unfold pyDateTimeStem
  rw [hy, hmm, hee, hkk, hnn]
  simp only [List.cons_append, List.nil_append]
  simp [isCanonicalDateTime, g1, g2, g3, g4, i1, i2, j1, j2, l1, l2, o1, o2]

theorem date_shape (y m d : Nat) (hy1 : 1 ≤ y) (hy2 : y ≤ 9999) (hm : m ≤ 99)
    (hd : d ≤ 99) :
    isCanonicalDate (pyDateStr y m d) = true := by
  obtain ⟨y1, y2, y3, y4, hy, g1, g2, g3, g4⟩ := pad4_eq y hy1 hy2
  obtain ⟨m1, m2, hmm, i1, i2⟩ := pad2_eq m hm
  obtain ⟨e1, e2, hee, j1, j2⟩ := pad2_eq d hd
  unfold pyDateStr
  rw [hy, hmm, hee]
  simp only [List.cons_append, List.nil_append]
  simp [isCanonicalDate, g1, g2, g3, g4, i1, i2, j1, j2]

/-- Every successful normalization yields one of the two canonical
shapes. -/
theorem normalize_date_canonical (date : Str) (ref : Ref) (out : Str)
    (h : normalize_date date ref = some out) :
    isCanonicalDateTime out = true ∨ isCanonicalDate out = true := by
  unfold normalize_date at h
  split at h
  · split at h
    next => exact Option.noConfusion h
    next d m y hh mi heq =>
      split at h
      · rename_i hv
        obtain ⟨hd1, hd2, hm1, hm2, hy2, hhh, hmm⟩ := parse_dmYHM_sound _ _ _ _ _ _ heq
        simp only [validDate, decide_eq_true_eq] at hv
        rw [Option.some.injEq] at h
        subst h
        left
        unfold pyDatetimeStr
        rw [truncLast3_append]
        exact stem_shape y m d hh mi (by omega) (by omega) (by omega) (by omega)
          (by omega) (by omega)
      · exact Option.noConfusion h
  · split at h
    next => exact Option.noConfusion h
    next d2 heq2 =>
      split at h
      · split at h
        next => exact Option.noConfusion h
        next d m hh mi heq =>
          split at h
          · split at h
            · rename_i hv1 hv2
              obtain ⟨hd1, hd2, hm1, hm2, hhh, hmm⟩ := parse_dmHM_sound _ _ _ _ _ heq
              simp only [validDate, decide_eq_true_eq] at hv2
              rw [Option.some.injEq] at h
              subst h
              left
              unfold pyDatetimeStr
              rw [truncLast3_append]
              exact stem_shape _ m d hh mi (by omega) (by omega) (by omega) (by omega)
                (by omega) (by omega)
            · exact Option.noConfusion h
          · exact Option.noConfusion h
      · split at h
        next => exact Option.noConfusion h
        next d m y heq =>
          split at h
          · rename_i hv
            obtain ⟨hd1, hd2, hm1, hm2, hy⟩ := parse_dmY_sound _ _ _ _ heq
            simp only [validDate, decide_eq_true_eq] at hv
            rw [Option.some.injEq] at h
            subst h
            right
            exact date_shape y m d (by omega) (by omega) (by omega) (by omega)
          · exact Option.noConfusion h

/-! ## Branch evaluation lemmas for the normalizer -/

theorem validDate_true (y m d : Nat) (h1 : 1 ≤ y) (h2 : y ≤ 9999) (h3 : 1 ≤ m) (h4 : m ≤ 12)
    (h5 : 1 ≤ d) (h6 : d ≤ daysInMonth y m) : validDate y m d = true := by
  simp only [validDate, decide_eq_true_eq]
  exact ⟨h1, h2, h3, h4, h5, h6⟩

theorem normalize_relative_eval (date : Str) (ref : Ref) (d m y h mi : Nat)
    (hcond : isSub ("Вчера".data) date = true ∨ isSub ("Сегодня".data) date = true)
    (hp : parse_dmYHM (convert_relative_date_to_absolute date ref) = some (d, m, y, h, mi))
    (hv : validDate y m d = true) :
    normalize_date date ref = some (truncLast3 (pyDatetimeStr y m d h mi)) := by
  unfold normalize_date
  rcases hcond with hc | hc <;> simp [hc, hp, hv]

theorem normalize_relative_fail (date : Str) (ref : Ref)
    (hcond : isSub ("Вчера".data) date = true ∨ isSub ("Сегодня".data) date = true)
    (hp : parse_dmYHM (convert_relative_date_to_absolute date ref) = none) :
    normalize_date date ref = none := by
  unfold normalize_date
  rcases hcond with hc | hc <;> simp [hc, hp]

theorem normalize_month_fail (date : Str) (ref : Ref)
    (hc1 : isSub ("Вчера".data) date = false) (hc2 : isSub ("Сегодня".data) date = false)
    (hrep : replace_month_name_with_number date = none) :
    normalize_date date ref = none := by
  unfold normalize_date
  simp [hc1, hc2, hrep]

theorem normalize_abs_time_eval (date d2 : Str) (ref : Ref) (d m h mi : Nat)
    (hc1 : isSub ("Вчера".data) date = false) (hc2 : isSub ("Сегодня".data) date = false)
    (hrep : replace_month_name_with_number date = some d2)
    (hco : (':' : Char) ∈ d2)
    (hp : parse_dmHM d2 = some (d, m, h, mi))
    (hv1 : validDate 1900 m d = true) (hv2 : validDate ref.year m d = true) :
    normalize_date date ref = some (truncLast3 (pyDatetimeStr ref.year m d h mi)) := by
  unfold normalize_date
  simp [hc1, hc2, hrep, hco, hp, hv1, hv2, get_current_year]

theorem validDate_false_of_day (y m d : Nat) (h : daysInMonth y m < d) :
    validDate y m d = false := by
  simp only [validDate, decide_eq_false_iff_not]
  rintro ⟨-, -, -, -, -, h6⟩
  omega

theorem normalize_abs_time_fail (date d2 : Str) (ref : Ref) (d m h mi : Nat)
    (hc1 : isSub ("Вчера".data) date = false) (hc2 : isSub ("Сегодня".data) date = false)
    (hrep : replace_month_name_with_number date = some d2)
    (hco : (':' : Char) ∈ d2)
    (hp : parse_dmHM d2 = some (d, m, h, mi))
    (hv1 : validDate 1900 m d = false) :
    normalize_date date ref = none := by
  unfold normalize_date
  simp [hc1, hc2, hrep, hco, hp, hv1]

theorem normalize_abs_date_eval (date d2 : Str) (ref : Ref) (d m y : Nat)
    (hc1 : isSub ("Вчера".data) date = false) (hc2 : isSub ("Сегодня".data) date = false)
    (hrep : replace_month_name_with_number date = some d2)
    (hco : ¬ (':' : Char) ∈ d2)
    (hp : parse_dmY d2 = some (d, m, y))
    (hv : validDate y m d = true) :
    normalize_date date ref = some (pyDateStr y m d) := by
  unfold normalize_date
  simp [hc1, hc2, hrep, hco, hp, hv]

/-! ## Relative-marker conversion lemmas -/

theorem convert_vchera (T : Str) (ref : Ref) (hT : ∀ c ∈ T, c ≠ 'В') :
    convert_relative_date_to_absolute ("Вчера".data ++ ' ' :: T) ref =
      renderNat (ref.day - 1) ++ ' ' ::
        (pad2 ref.month ++ ' ' :: (renderNat ref.year ++ ' ' :: T)) := by
  unfold convert_relative_date_to_absolute
  rw [if_pos (isSub_append_self ("Вчера".data) (' ' :: T))]
  unfold replace_relative_day_with_absolute get_current_month get_current_year get_current_day
  have hrw : replaceAll ("Вчера".data) ("Вчера".data ++ ' ' :: T) = ' ' :: T := by
    rw [show "Вчера".data = 'В' :: "чера".data from rfl, replaceAll_self_append]
    apply replaceAll_of_not_sub
    apply isSub_eq_false
    intro c hc
    rcases List.mem_cons.1 hc with rfl | hc
    · decide
    · exact hT c hc
  rw [hrw]

theorem convert_segodnya (T : Str) (ref : Ref) (hT : ∀ c ∈ T, c ≠ 'В' ∧ c ≠ 'С') :
    convert_relative_date_to_absolute ("Сегодня".data ++ ' ' :: T) ref =
      renderNat ref.day ++ ' ' ::
        (pad2 ref.month ++ ' ' :: (renderNat ref.year ++ ' ' :: T)) := by
  have hsg : ∀ x ∈ "Сегодня".data, x ≠ 'В' := by decide
  have hnv : isSub ("Вчера".data) ("Сегодня".data ++ ' ' :: T) = false := by
    rw [show "Вчера".data = 'В' :: "чера".data from rfl]
    apply isSub_eq_false
    intro c hc
    rcases List.mem_append.1 hc with hc | hc
    · exact hsg c hc
    · rcases List.mem_cons.1 hc with rfl | hc
      · decide
      · exact (hT c hc).1
  unfold convert_relative_date_to_absolute
  rw [if_neg (fun hcc => by rw [hnv] at hcc; exact Bool.noConfusion hcc)]
  unfold replace_relative_day_with_absolute get_current_month get_current_year get_current_day
  have hrw : replaceAll ("Сегодня".data) ("Сегодня".data ++ ' ' :: T) = ' ' :: T := by
    rw [show "Сегодня".data = 'С' :: "егодня".data from rfl, replaceAll_self_append]
    apply replaceAll_of_not_sub
    apply isSub_eq_false
    intro c hc
    rcases List.mem_cons.1 hc with rfl | hc
    · decide
    · exact (hT c hc).2
  rw [hrw]

/-! ## Tameness of the structured inputs -/

theorem time_tail_chars (h mi : Nat) :
    ∀ c ∈ pad2 h ++ ':' :: pad2 mi, isDig c = true ∨ c = ':' := by
  intro c hc
  rcases List.mem_append.1 hc with hc | hc
  · exact Or.inl (mem_pad2_isDig h c hc)
  · rcases List.mem_cons.1 hc with rfl | hc
    · exact Or.inr rfl
    · exact Or.inl (mem_pad2_isDig mi c hc)

theorem time_tail_no_marker (h mi : Nat) :
    ∀ c ∈ pad2 h ++ ':' :: pad2 mi, c ≠ 'В' ∧ c ≠ 'С' := by
  intro c hc
  rcases time_tail_chars h mi c hc with hd | rfl
  · have := isDig_char_facts c hd
    exact ⟨this.2.1, this.2.2.1⟩
  · exact ⟨by decide, by decide⟩

theorem time_tail_not_ws (h mi : Nat) :
    ∀ c ∈ pad2 h ++ ':' :: pad2 mi, c.isWhitespace = false := by
  intro c hc
  rcases time_tail_chars h mi c hc with hd | rfl
  · exact (isDig_char_facts c hd).1
  · rfl

theorem renderNat_ne_nil (n : Nat) : renderNat n ≠ [] := by
  rw [renderNat_eq]
  split
  · simp
  · simp

theorem monthsMap_monthName (m : Nat) (h1 : 1 ≤ m) (h2 : m ≤ 12) :
    monthsMap (monthName m) = some (renderNat m) := by
  interval_cases m <;> rfl

theorem monthName_facts (m : Nat) (h1 : 1 ≤ m) (h2 : m ≤ 12) :
    monthName m ≠ [] ∧
      ∀ c ∈ monthName m, c ≠ 'В' ∧ c ≠ 'С' ∧ c.isWhitespace = false ∧ c ≠ ':' := by
  interval_cases m <;> exact ⟨by decide, by decide⟩

theorem c4_no_marker (d m : Nat) (tail : Str) (hm1 : 1 ≤ m) (hm2 : m ≤ 12)
    (htail : ∀ c ∈ tail, isDig c = true ∨ c = ':') :
    isSub ("Вчера".data) (renderNat d ++ ' ' :: (monthName m ++ ' ' :: tail)) = false ∧
    isSub ("Сегодня".data) (renderNat d ++ ' ' :: (monthName m ++ ' ' :: tail)) = false := by
  obtain ⟨-, hmf⟩ := monthName_facts m hm1 hm2
  have hall : ∀ c ∈ renderNat d ++ ' ' :: (monthName m ++ ' ' :: tail), c ≠ 'В' ∧ c ≠ 'С' := by
    intro c hc
    rcases List.mem_append.1 hc with hc | hc
    · have := isDig_char_facts c (mem_renderNat_isDig d c hc)
      exact ⟨this.2.1, this.2.2.1⟩
    · rcases List.mem_cons.1 hc with rfl | hc
      · exact ⟨by decide, by decide⟩
      · rcases List.mem_append.1 hc with hc | hc
        · exact ⟨(hmf c hc).1, (hmf c hc).2.1⟩
        · rcases List.mem_cons.1 hc with rfl | hc
          · exact ⟨by decide, by decide⟩
          · rcases htail c hc with hd | rfl
            · have := isDig_char_facts c hd
              exact ⟨this.2.1, this.2.2.1⟩
            · exact ⟨by decide, by decide⟩
  constructor
  · rw [show "Вчера".data = 'В' :: "чера".data from rfl]
    exact isSub_eq_false _ _ _ (fun c hc => (hall c hc).1)
  · rw [show "Сегодня".data = 'С' :: "егодня".data from rfl]
    exact isSub_eq_false _ _ _ (fun c hc => (hall c hc).2)

theorem replace_month_eval (d m : Nat) (tail : Str) (hm1 : 1 ≤ m) (hm2 : m ≤ 12)
    (htail : tail ≠ []) (hws : ∀ c ∈ tail, c.isWhitespace = false) :
    replace_month_name_with_number (renderNat d ++ ' ' :: (monthName m ++ ' ' :: tail)) =
      some (renderNat d ++ ' ' :: (renderNat m ++ ' ' :: tail)) := by
  obtain ⟨hmne, hmf⟩ := monthName_facts m hm1 hm2
  simp only [replace_month_name_with_number]
  rw [pySplit_three _ _ _ (renderNat_ne_nil d) hmne htail
    (fun c hc => (isDig_char_facts c (mem_renderNat_isDig d c hc)).1)
    (fun c hc => (hmf c hc).2.2.1) hws]
  simp only [List.getElem?_cons_succ, List.getElem?_cons_zero, monthsMap_monthName m hm1 hm2,
    List.set_cons_succ, List.set_cons_zero]
  rw [joinSp_three]

theorem colon_mem_time_input (d m h mi : Nat) :
    (':' : Char) ∈ renderNat d ++ ' ' :: (renderNat m ++ ' ' :: (pad2 h ++ ':' :: pad2 mi)) := by
  apply List.mem_append_right
  apply List.mem_cons_of_mem
  apply List.mem_append_right
  apply List.mem_cons_of_mem
  apply List.mem_append_right
  exact List.mem_cons_self _ _

theorem colon_not_mem_date_input (d m y : Nat) :
    ¬ (':' : Char) ∈ renderNat d ++ ' ' :: (renderNat m ++ ' ' :: renderNat y) := by
  intro hc
  rcases List.mem_append.1 hc with hc | hc
  · exact absurd (mem_renderNat_isDig d ':' hc) (by decide)
  · rcases List.mem_cons.1 hc with hc | hc
    · exact absurd hc (by decide)
    · rcases List.mem_append.1 hc with hc | hc
      · exact absurd (mem_renderNat_isDig m ':' hc) (by decide)
      · rcases List.mem_cons.1 hc with hc | hc
        · exact absurd hc (by decide)
        · exact absurd (mem_renderNat_isDig y ':' hc) (by decide)

/-! ## Pipeline lemmas -/

theorem fetch_page_blocked_iff (r : Response) :
    fetch_page r = .error .tooManyRequests ↔ r.url = blockedUrl := by
  unfold fetch_page
  split <;> rename_i h <;> simp [h]

theorem fetch_page_ok (r : Response) (h : r.url ≠ blockedUrl) : fetch_page r = .ok r.text := by
  unfold fetch_page
  rw [if_neg h]

theorem fetch_page_error_eq (r : Response) (e : PyErr) (h : fetch_page r = .error e) :
    e = .tooManyRequests := by
  unfold fetch_page at h
  split at h
  · exact (Except.error.inj h).symm
  · exact Except.noConfusion h

theorem get_pagesAux_step (net : Nat → Response) (noResults : Str → Bool) (n f : Nat) :
    get_pagesAux net noResults n (f + 1) =
      match fetch_page (net n) with
      | .error e => ⟨[], [n], some e⟩
      | .ok page =>
        if noResults page then ⟨[], [n], none⟩
        else ⟨page :: (get_pagesAux net noResults (n + 1) f).yielded,
              n :: (get_pagesAux net noResults (n + 1) f).fetched,
              (get_pagesAux net noResults (n + 1) f).error⟩ := rfl

theorem get_all_adsAux_step (net : Nat → Response) (noResults : Str → Bool)
    (adsOf : Str → List RawAd) (ref : Ref) (n f : Nat) :
    get_all_adsAux net noResults adsOf ref n (f + 1) =
      match fetch_page (net n) with
      | .error e => ⟨[], [n], some e⟩
      | .ok page =>
        if noResults page then ⟨[], [n], none⟩
        else
          match adsOf page with
          | [] => ⟨[], [n], none⟩
          | a :: tl =>
            match aggregateList ref (a :: tl) with
            | (rs, true) => ⟨rs, [n], some .unrecognizedFormat⟩
            | (rs, false) =>
              ⟨rs ++ (get_all_adsAux net noResults adsOf ref (n + 1) f).records,
               n :: (get_all_adsAux net noResults adsOf ref (n + 1) f).fetched,
               (get_all_adsAux net noResults adsOf ref (n + 1) f).error⟩ := rfl

theorem get_pagesAux_run (net : Nat → Response) (noResults : Str → Bool) :
    ∀ (cnt start fuel : Nat), cnt ≤ fuel →
      (∀ k, start ≤ k → k < start + cnt →
        (net k).url ≠ blockedUrl ∧ noResults (net k).text = false) →
      (net (start + cnt)).url ≠ blockedUrl → noResults (net (start + cnt)).text = true →
      get_pagesAux net noResults start (fuel + 1) =
        ⟨(List.range' start cnt).map (fun k => (net k).text), List.range' start (cnt + 1),
          none⟩ := by
  intro cnt
  induction cnt with
  | zero =>
    intro start fuel _ _ hb hm
    simp only [Nat.add_zero] at hb hm
    rw [get_pagesAux_step, fetch_page_ok _ hb]
    simp [hm, List.range']
  | succ cnt ih =>
    intro start fuel hcnt hgood hb hm
    obtain ⟨f, rfl⟩ : ∃ f, fuel = f + 1 := ⟨fuel - 1, by omega⟩
    have h0 := hgood start (le_refl _) (by omega)
    have hrec := ih (start + 1) f (by omega)
      (fun k hk1 hk2 => hgood k (by omega) (by omega))
      (by rw [show start + 1 + cnt = start + (cnt + 1) from by omega]; exact hb)
      (by rw [show start + 1 + cnt = start + (cnt + 1) from by omega]; exact hm)
    rw [get_pagesAux_step, fetch_page_ok _ h0.1]
    simp [h0.2, hrec, List.range'_succ]

theorem get_all_adsAux_blocked (net : Nat → Response) (noResults : Str → Bool)
    (adsOf : Str → List RawAd) (ref : Ref) (n fuel : Nat)
    (h : (net n).url = blockedUrl) :
    get_all_adsAux net noResults adsOf ref n (fuel + 1) = ⟨[], [n], some .tooManyRequests⟩ := by
  simp [get_all_adsAux, fetch_page, h]

theorem get_all_adsAux_noResults (net : Nat → Response) (noResults : Str → Bool)
    (adsOf : Str → List RawAd) (ref : Ref) (n fuel : Nat)
    (hb : (net n).url ≠ blockedUrl) (hm : noResults (net n).text = true) :
    get_all_adsAux net noResults adsOf ref n (fuel + 1) = ⟨[], [n], none⟩ := by
  simp [get_all_adsAux, fetch_page_ok _ hb, hm]

theorem get_all_adsAux_empty (net : Nat → Response) (noResults : Str → Bool)
    (adsOf : Str → List RawAd) (ref : Ref) (n fuel : Nat)
    (hb : (net n).url ≠ blockedUrl) (hm : noResults (net n).text = false)
    (he : adsOf (net n).text = []) :
    get_all_adsAux net noResults adsOf ref n (fuel + 1) = ⟨[], [n], none⟩ := by
  simp [get_all_adsAux, fetch_page_ok _ hb, hm, he]

theorem get_all_adsAux_fail (net : Nat → Response) (noResults : Str → Bool)
    (adsOf : Str → List RawAd) (ref : Ref) (n fuel : Nat) (a : RawAd) (tl : List RawAd)
    (rs : List AdRecord)
    (hb : (net n).url ≠ blockedUrl) (hm : noResults (net n).text = false)
    (ha : adsOf (net n).text = a :: tl)
    (hagg : aggregateList ref (a :: tl) = (rs, true)) :
    get_all_adsAux net noResults adsOf ref n (fuel + 1) =
      ⟨rs, [n], some .unrecognizedFormat⟩ := by
  simp [get_all_adsAux, fetch_page_ok _ hb, hm, ha, hagg]

theorem aggregateList_fail_head (ref : Ref) (ad : RawAd) (tl : List RawAd)
    (h : agregate_ad_info ad ref = none) :
    aggregateList ref (ad :: tl) = ([], true) := by
  simp [aggregateList, h]

theorem aggregateList_mem (ref : Ref) :
    ∀ (ads : List RawAd) (r : AdRecord), r ∈ (aggregateList ref ads).1 →
      ∃ ad, agregate_ad_info ad ref = some r := by
  intro ads
  induction ads with
  | nil => intro r h; simp [aggregateList] at h
  | cons ad tl ih =>
    intro r h
    simp only [aggregateList] at h
    cases hagg : agregate_ad_info ad ref with
    | none => rw [hagg] at h; simp at h
    | some rec =>
      rw [hagg] at h
      cases htl : aggregateList ref tl with
      | mk rs e =>
        rw [htl] at h
        simp at h
        rcases h with rfl | h
        · exact ⟨ad, hagg⟩
        · exact ih r (by rw [htl]; exact h)

theorem get_all_adsAux_records (net : Nat → Response) (noResults : Str → Bool)
    (adsOf : Str → List RawAd) (ref : Ref) :
    ∀ (fuel n : Nat) (r : AdRecord),
      r ∈ (get_all_adsAux net noResults adsOf ref n fuel).records →
      ∃ ad, agregate_ad_info ad ref = some r := by
  intro fuel
  induction fuel with
  | zero => intro n r h; simp [get_all_adsAux] at h
  | succ f ih =>
    intro n r h
    rw [get_all_adsAux_step] at h
    split at h
    · simp at h
    · split at h
      · simp at h
      · split at h
        · simp at h
        · split at h
          next rs hagg =>
            exact aggregateList_mem ref _ r (by rw [hagg]; exact h)
          next rs hagg =>
            simp only [List.mem_append] at h
            rcases h with h | h
            · exact aggregateList_mem ref _ r (by rw [hagg]; exact h)
            · exact ih (n + 1) r h

theorem get_all_adsAux_error_ne_invalid (net : Nat → Response) (noResults : Str → Bool)
    (adsOf : Str → List RawAd) (ref : Ref) :
    ∀ (fuel n : Nat),
      (get_all_adsAux net noResults adsOf ref n fuel).error ≠ some .invalidParameter := by
  intro fuel
  induction fuel with
  | zero => intro n; simp [get_all_adsAux]
  | succ f ih =>
    intro n
    rw [get_all_adsAux_step]
    split
    · rename_i e heq
      have he := fetch_page_error_eq _ _ heq
      subst he
      simp
    · split
      · simp
      · split
        · simp
        · split
          · simp
          · simp [ih (n + 1)]

theorem get_pagesAux_next (net : Nat → Response) (noResults : Str → Bool) (n fuel : Nat)
    (hb : (net n).url ≠ blockedUrl) (hm : noResults (net n).text = false) :
    (n + 1) ∈ (get_pagesAux net noResults n (fuel + 1 + 1)).fetched := by
  simp only [get_pagesAux, fetch_page_ok _ hb, hm]
  cases hf : fetch_page (net (n + 1)) with
  | error e => simp [hf]
  | ok page =>
    by_cases hm2 : noResults page
    · simp [hf, hm2]
    · simp [hf, hm2]

theorem get_all_ads_invalid (quoteFn : Str → Str) (net : Nat → Response)
    (noResults : Str → Bool) (adsOf : Str → List RawAd) (query : Str) (s : Option Str)
    (bt wi : Bool) (o : Option Str) (ref : Ref) (fuel : Nat)
    (h : generate_search_url quoteFn query s bt wi o = .error .invalidParameter) :
    get_all_ads quoteFn net noResults adsOf query s bt wi o ref fuel =
      ⟨[], [], some .invalidParameter⟩ := by
  unfold get_all_ads
  rw [h]

theorem get_all_ads_valid (quoteFn : Str → Str) (net : Nat → Response)
    (noResults : Str → Bool) (adsOf : Str → List RawAd) (query : Str) (s : Option Str)
    (bt wi : Bool) (o : Option Str) (ref : Ref) (fuel : Nat) (u : Str)
    (h : generate_search_url quoteFn query s bt wi o = .ok u) :
    get_all_ads quoteFn net noResults adsOf query s bt wi o ref fuel =
      get_all_adsAux net noResults adsOf ref 1 fuel := by
  unfold get_all_ads
  rw [h]

/-! ## URL builder characterization -/

theorem sortByArg_some_iff (t : Str) :
    (∃ e : SortBy, sortByArg e = some t) ↔
      t = "date".data ∨ t = "price".data ∨ t = "price_desc".data := by
  constructor
  · rintro ⟨e, he⟩
    cases e
    case relevance => exact Option.noConfusion he
    case date => exact Or.inl (Option.some.inj he).symm
    case price_asc => exact Or.inr (Or.inl (Option.some.inj he).symm)
    case price_desc => exact Or.inr (Or.inr (Option.some.inj he).symm)
  · rintro (rfl | rfl | rfl)
    · exact ⟨.date, rfl⟩
    · exact ⟨.price_asc, rfl⟩
    · exact ⟨.price_desc, rfl⟩

theorem ownerArg_some_iff (t : Str) :
    (∃ w : OwnerKind, ownerArg w = some t) ↔
      t = "private".data ∨ t = "company".data := by
  constructor
  · rintro ⟨w, hw⟩
    cases w
    case anyOwner => exact Option.noConfusion hw
    case privateOwner => exact Or.inl (Option.some.inj hw).symm
    case companyOwner => exact Or.inr (Option.some.inj hw).symm
  · rintro (rfl | rfl)
    · exact ⟨.privateOwner, rfl⟩
    · exact ⟨.companyOwner, rfl⟩

theorem sort_values_none_iff (s : Option Str) :
    sort_values s = none ↔ ¬∃ e : SortBy, sortByArg e = s := by
  cases s with
  | none =>
    simp only [sort_values]
    constructor
    · intro h; exact Option.noConfusion h
    · intro h; exact absurd ⟨SortBy.relevance, rfl⟩ h
  | some t =>
    rw [sortByArg_some_iff t]
    simp only [sort_values]
    split_ifs with h1 h2 h3 <;> simp_all

theorem owners_none_iff (o : Option Str) :
    owners o = none ↔ ¬∃ w : OwnerKind, ownerArg w = o := by
  cases o with
  | none =>
    simp only [owners]
    constructor
    · intro h; exact Option.noConfusion h
    · intro h; exact absurd ⟨OwnerKind.anyOwner, rfl⟩ h
  | some t =>
    rw [ownerArg_some_iff t]
    simp only [owners]
    split_ifs with h1 h2 <;> simp_all

theorem generate_search_url_cases (quoteFn : Str → Str) (q : Str) (s o : Option Str)
    (bt wi : Bool) :
    (generate_search_url quoteFn q s bt wi o = .error .invalidParameter ↔
      sort_values s = none ∨ owners o = none) ∧
    (∀ sv ov, sort_values s = some sv → owners o = some ov →
      ∃ p, generate_search_url quoteFn q s bt wi o = .ok (p ++ "&p={}".data)) := by
  unfold generate_search_url
  cases hs : sort_values s with
  | none =>
    refine ⟨by simp, ?_⟩
    intro sv ov hsv _
    exact Option.noConfusion hsv
  | some sv =>
    cases ho : owners o with
    | none =>
      refine ⟨by simp, ?_⟩
      intro sv' ov hsv hov
      exact Option.noConfusion hov
    | some ov =>
      refine ⟨by simp, ?_⟩
      intro sv' ov' _ _
      exact ⟨_, rfl⟩

/-! ## Price lemmas -/

theorem digitsToInt_foldl_nonneg :
    ∀ (ds : Str) (a : Int), 0 ≤ a → (∀ c ∈ ds, isDig c = true) →
      0 ≤ ds.foldl (fun x c => x * 10 + ((c.toNat : Int) - 48)) a := by
  intro ds
  induction ds with
  | nil => intro a ha _; simpa using ha
  | cons c tl ih =>
    intro a ha hd
    simp only [List.foldl_cons]
    apply ih
    · have hc := hd c (by simp)
      simp only [isDig, decide_eq_true_eq] at hc
      omega
    · exact fun c' hc' => hd c' (by simp [hc'])

theorem get_price_eval (s : Str) :
    (get_price s = none ↔ s.filter isDig = []) ∧
    (∀ n, get_price s = some n → 0 ≤ n ∧ n = digitsToInt (s.filter isDig)) := by
  have hrw : get_price s =
      if (s.filter isDig).isEmpty then none else some (digitsToInt (s.filter isDig)) := rfl
  constructor
  · rw [hrw]
    split <;> rename_i h <;> simp_all [List.isEmpty_iff]
  · intro n hn
    rw [hrw] at hn
    split at hn
    · exact Option.noConfusion hn
    · rw [Option.some.injEq] at hn
      subst hn
      refine ⟨?_, rfl⟩
      unfold digitsToInt
      exact digitsToInt_foldl_nonneg _ 0 le_rfl (fun c hc => (List.mem_filter.1 hc).2)

theorem truncLast3_pyDatetimeStr (y m d h mi : Nat) :
    truncLast3 (pyDatetimeStr y m d h mi) = pyDateTimeStem y m d h mi := by
  unfold pyDatetimeStr
  exact truncLast3_append _ ':' '0' '0'

theorem replace_month_none (date : Str) (tok : Str) (htok : (pySplit date)[1]? = some tok)
    (hmm : monthsMap tok = none) : replace_month_name_with_number date = none := by
  have hrw : replace_month_name_with_number date =
      match (pySplit date)[1]? with
      | none => none
      | some tok =>
        match monthsMap tok with
        | none => none
        | some num => some (joinSp ((pySplit date).set 1 num)) := rfl
  simp only [hrw, htok, hmm]

/-! ## The claims -/

/-- C1: for a raw date string carrying a `Вчера` (yesterday) or
`Сегодня` (today) marker followed by a clock time, `normalize_date`
resolves the marker against `referenceNow`: yesterday is the
day-of-month minus one, today is the day-of-month itself, month and
year are `referenceNow`'s, and the output is the absolute string
`YYYY-MM-DD HH:MM` with the seconds truncated.  In particular
`normalize_date "Вчера 15:29"` with referenceNow 2019-01-11 gives
`"2019-01-10 15:29"` (the witness instantiates exactly that). -/
theorem normalize_relative_marker_resolves (ref : Ref) (h mi : Nat)
    (hM1 : 1 ≤ ref.month) (hM2 : ref.month ≤ 12)
    (hY1 : 1000 ≤ ref.year) (hY2 : ref.year ≤ 9999)
    (hh : h ≤ 23) (hmi : mi ≤ 59) :
    (2 ≤ ref.day → ref.day - 1 ≤ daysInMonth ref.year ref.month →
      normalize_date ("Вчера".data ++ ' ' :: (pad2 h ++ ':' :: pad2 mi)) ref =
        some (pyDateTimeStem ref.year ref.month (ref.day - 1) h mi)) ∧
    (1 ≤ ref.day → ref.day ≤ daysInMonth ref.year ref.month →
      normalize_date ("Сегодня".data ++ ' ' :: (pad2 h ++ ':' :: pad2 mi)) ref =
        some (pyDateTimeStem ref.year ref.month ref.day h mi)) := by
  constructor
  · intro hD1 hD2
    have he := normalize_relative_eval ("Вчера".data ++ ' ' :: (pad2 h ++ ':' :: pad2 mi)) ref
      (ref.day - 1) ref.month ref.year h mi
      (Or.inl (isSub_append_self _ _))
      (by
        rw [convert_vchera _ _ (fun c hc => (time_tail_no_marker h mi c hc).1)]
        exact parse_dmYHM_render (ref.day - 1) ref.month ref.year h mi (by omega)
          (by have := daysInMonth_le_31 ref.year ref.month; omega) hM1 hM2 hY1 hY2 hh hmi)
      (validDate_true _ _ _ (by omega) hY2 hM1 hM2 (by omega) hD2)
    rw [truncLast3_pyDatetimeStr] at he
    exact he
  · intro hD1 hD2
    have he := normalize_relative_eval ("Сегодня".data ++ ' ' :: (pad2 h ++ ':' :: pad2 mi)) ref
      ref.day ref.month ref.year h mi
      (Or.inr (isSub_append_self _ _))
      (by
        rw [convert_segodnya _ _ (time_tail_no_marker h mi)]
        exact parse_dmYHM_render ref.day ref.month ref.year h mi hD1
          (by have := daysInMonth_le_31 ref.year ref.month; omega) hM1 hM2 hY1 hY2 hh hmi)
      (validDate_true _ _ _ (by omega) hY2 hM1 hM2 hD1 hD2)
    rw [truncLast3_pyDatetimeStr] at he
    exact he

theorem normalize_relative_marker_resolves_witness :
    normalize_date ("Вчера 15:29".data) ⟨11, 1, 2019⟩ = some ("2019-01-10 15:29".data) := by
  have h := (normalize_relative_marker_resolves ⟨11, 1, 2019⟩ 15 29 (by norm_num) (by norm_num)
    (by norm_num) (by norm_num) (by norm_num) (by norm_num)).1 (by norm_num) (by decide)
  exact h

/-- C2: the pagination sequence stops at the first fetched page that
carries the nothing-found marker: every page up to and including that
page is fetched exactly once, nothing past it is ever fetched, the
pages before it are the ones yielded, and the run ends without an
error. -/
theorem pagination_stops_at_first_marker (net : Nat → Response) (noResults : Str → Bool)
    (N fuel : Nat) (hN : 1 ≤ N) (hfuel : N ≤ fuel)
    (hgood : ∀ k, 1 ≤ k → k < N → (net k).url ≠ blockedUrl ∧ noResults (net k).text = false)
    (hb : (net N).url ≠ blockedUrl) (hm : noResults (net N).text = true) :
    get_pages net noResults fuel =
      ⟨(List.range' 1 (N - 1)).map (fun k => (net k).text), List.range' 1 N, none⟩ := by
  obtain ⟨f, rfl⟩ : ∃ f, fuel = f + 1 := ⟨fuel - 1, by omega⟩
  have e1 : 1 + (N - 1) = N := by omega
  have h := get_pagesAux_run net noResults (N - 1) 1 f (by omega)
    (fun k hk1 hk2 => hgood k hk1 (by omega)) (by rw [e1]; exact hb) (by rw [e1]; exact hm)
  unfold get_pages
  rw [h, show N - 1 + 1 = N from by omega]

theorem pagination_stops_at_first_marker_witness :
    get_pages (fun n => ⟨"u".data, if n < 3 then "P".data else "E".data⟩)
        (fun s => decide (s = "E".data)) 3 =
      ⟨["P".data, "P".data], [1, 2, 3], none⟩ := by
  have h := pagination_stops_at_first_marker
    (fun n => ⟨"u".data, if n < 3 then "P".data else "E".data⟩)
    (fun s => decide (s = "E".data)) 3 3 (by norm_num) (le_refl 3)
    (fun k hk1 hk2 => by interval_cases k <;> exact ⟨by decide, by decide⟩)
    (by decide) (by decide)
  rw [h]
  decide

/-- C3: `fetch_page` raises `TooManyRequests` exactly when the final
URL after redirects is the block page — the decision reads only the
URL, before any content inspection — and a run hitting a blocked fetch
ends right there: the blocked page number is the last fetch, no record
is extracted from it, and the error surfaces; a fetch whose final URL
differs never raises it and returns the body. -/
theorem blocked_redirect_raises_rate_limit :
    (∀ r : Response, fetch_page r = .error .tooManyRequests ↔ r.url = blockedUrl) ∧
    (∀ r : Response, r.url ≠ blockedUrl → fetch_page r = .ok r.text) ∧
    (∀ (net : Nat → Response) (noResults : Str → Bool) (adsOf : Str → List RawAd)
        (ref : Ref) (n fuel : Nat), (net n).url = blockedUrl →
      get_all_adsAux net noResults adsOf ref n (fuel + 1) =
        ⟨[], [n], some .tooManyRequests⟩) :=
  ⟨fetch_page_blocked_iff, fetch_page_ok, get_all_adsAux_blocked⟩

theorem blocked_redirect_raises_rate_limit_witness :
    fetch_page ⟨"https://www.avito.ru/blocked".data, "x".data⟩ = .error .tooManyRequests ∧
    get_all_adsAux (fun _ => ⟨"https://www.avito.ru/blocked".data, "x".data⟩)
      (fun _ => false) (fun _ => []) ⟨1, 1, 2019⟩ 1 5 = ⟨[], [1], some .tooManyRequests⟩ :=
  ⟨(blocked_redirect_raises_rate_limit.1 _).mpr rfl,
   blocked_redirect_raises_rate_limit.2.2 _ _ _ _ 1 4 rfl⟩

/-- C4 counterexample: the original claim promises that every
vocabulary-month input with a clock time yields `YYYY-MM-DD HH:MM`
with the year stamped from `referenceNow`; but the source's
`strptime(date, '%d %m %H:%M')` validates the day against the default
year 1900, which is not a leap year, so `"29 февраля 10:00"` under the
leap reference year 2020 — a real calendar date there, as the first
conjunct records — yields no output at all instead of
`"2020-02-29 10:00"`.  The same day parses fine in the date-only
branch, so the failure is precisely the 1900 check. -/
theorem normalize_absolute_forms_counterexample :
    daysInMonth 2020 2 = 29 ∧
    normalize_date ("29 февраля 10:00".data) ⟨15, 2, 2020⟩ = none ∧
    normalize_date ("29 февраля 2020".data) ⟨15, 2, 2020⟩ = some ("2020-02-29".data) :=
  ⟨by decide, by decide, by decide⟩

/-- C4 (amended): for a raw date string without a relative marker
whose month name is in the 12-entry vocabulary: when a clock time is
present the input is parsed as `day month hour:minute` and the day is
validated against `strptime`'s default year 1900 — if it fits (which
excludes February 29, 1900 being a non-leap year), the year is stamped
from `referenceNow` and the output is `YYYY-MM-DD HH:MM`; if the day
exceeds the month's length in 1900, normalization raises `ValueError`
and produces no output, even when the day is valid in `referenceNow`'s
year.  Without a clock time the input is parsed as `day month year`
with output `YYYY-MM-DD` and no time component. -/
theorem normalize_absolute_forms (ref : Ref) (d m y h mi : Nat)
    (hm1 : 1 ≤ m) (hm2 : m ≤ 12) (hd1 : 1 ≤ d) :
    (d ≤ daysInMonth 1900 m → d ≤ daysInMonth ref.year m → 1 ≤ ref.year → ref.year ≤ 9999 →
      h ≤ 23 → mi ≤ 59 →
      normalize_date (renderNat d ++ ' ' :: (monthName m ++ ' ' :: (pad2 h ++ ':' :: pad2 mi)))
          ref =
        some (pyDateTimeStem ref.year m d h mi)) ∧
    (d ≤ daysInMonth y m → 1000 ≤ y → y ≤ 9999 →
      normalize_date (renderNat d ++ ' ' :: (monthName m ++ ' ' :: renderNat y)) ref =
        some (pyDateStr y m d)) ∧
    (daysInMonth 1900 m < d → d ≤ 31 → h ≤ 23 → mi ≤ 59 →
      normalize_date (renderNat d ++ ' ' :: (monthName m ++ ' ' :: (pad2 h ++ ':' :: pad2 mi)))
          ref =
        none) := by
  refine ⟨?_, ?_, ?_⟩
  · intro hdm1 hdm2 hy1 hy2 hh hmi
    have hnm := c4_no_marker d m (pad2 h ++ ':' :: pad2 mi) hm1 hm2 (time_tail_chars h mi)
    have he := normalize_abs_time_eval
      (renderNat d ++ ' ' :: (monthName m ++ ' ' :: (pad2 h ++ ':' :: pad2 mi)))
      (renderNat d ++ ' ' :: (renderNat m ++ ' ' :: (pad2 h ++ ':' :: pad2 mi)))
      ref d m h mi hnm.1 hnm.2
      (replace_month_eval d m _ hm1 hm2 (by simp) (time_tail_not_ws h mi))
      (colon_mem_time_input d m h mi)
      (parse_dmHM_render d m h mi hd1 (by have := daysInMonth_le_31 1900 m; omega) hm1 hm2 hh hmi)
      (validDate_true 1900 m d (by norm_num) (by norm_num) hm1 hm2 hd1 hdm1)
      (validDate_true ref.year m d hy1 hy2 hm1 hm2 hd1 hdm2)
    rw [truncLast3_pyDatetimeStr] at he
    exact he
  · intro hdm hy1 hy2
    have hnm := c4_no_marker d m (renderNat y) hm1 hm2
      (fun c hc => Or.inl (mem_renderNat_isDig y c hc))
    exact normalize_abs_date_eval
      (renderNat d ++ ' ' :: (monthName m ++ ' ' :: renderNat y))
      (renderNat d ++ ' ' :: (renderNat m ++ ' ' :: renderNat y))
      ref d m y hnm.1 hnm.2
      (replace_month_eval d m _ hm1 hm2 (renderNat_ne_nil y)
        (fun c hc => (isDig_char_facts c (mem_renderNat_isDig y c hc)).1))
      (colon_not_mem_date_input d m y)
      (parse_dmY_render d m y hd1 (by have := daysInMonth_le_31 y m; omega) hm1 hm2 hy1 hy2)
      (validDate_true y m d (by omega) hy2 hm1 hm2 hd1 hdm)
  · intro hdm hd31 hh hmi
    have hnm := c4_no_marker d m (pad2 h ++ ':' :: pad2 mi) hm1 hm2 (time_tail_chars h mi)
    exact normalize_abs_time_fail
      (renderNat d ++ ' ' :: (monthName m ++ ' ' :: (pad2 h ++ ':' :: pad2 mi)))
      (renderNat d ++ ' ' :: (renderNat m ++ ' ' :: (pad2 h ++ ':' :: pad2 mi)))
      ref d m h mi hnm.1 hnm.2
      (replace_month_eval d m _ hm1 hm2 (by simp) (time_tail_not_ws h mi))
      (colon_mem_time_input d m h mi)
      (parse_dmHM_render d m h mi hd1 hd31 hm1 hm2 hh hmi)
      (validDate_false_of_day 1900 m d hdm)

theorem normalize_absolute_forms_witness :
    normalize_date ("5 марта 09:41".data) ⟨5, 3, 2019⟩ = some ("2019-03-05 09:41".data) ∧
    normalize_date ("10 января 2019".data) ⟨5, 3, 2019⟩ = some ("2019-01-10".data) ∧
    normalize_date ("29 февраля 10:00".data) ⟨15, 2, 2020⟩ = none := by
  refine ⟨?_, ?_, ?_⟩
  · exact (normalize_absolute_forms ⟨5, 3, 2019⟩ 5 3 2019 9 41 (by norm_num) (by norm_num)
      (by norm_num)).1 (by decide) (by decide) (by norm_num) (by norm_num) (by norm_num)
      (by norm_num)
  · exact (normalize_absolute_forms ⟨5, 3, 2019⟩ 10 1 2019 0 0 (by norm_num) (by norm_num)
      (by norm_num)).2.1 (by decide) (by norm_num) (by norm_num)
  · exact (normalize_absolute_forms ⟨15, 2, 2020⟩ 29 2 2020 10 0 (by norm_num) (by norm_num)
      (by norm_num)).2.2 (by decide) (by norm_num) (by norm_num) (by norm_num)

/-- C5: every successfully produced record has a date of exactly the
form `YYYY-MM-DD HH:MM` or `YYYY-MM-DD`: first for `normalize_date`
itself, then for every record the ad pipeline ever yields. -/
theorem yielded_record_date_canonical :
    (∀ (date : Str) (ref : Ref) (out : Str), normalize_date date ref = some out →
      isCanonicalDateTime out = true ∨ isCanonicalDate out = true) ∧
    (∀ (net : Nat → Response) (noResults : Str → Bool) (adsOf : Str → List RawAd)
        (ref : Ref) (fuel n : Nat) (r : AdRecord),
      r ∈ (get_all_adsAux net noResults adsOf ref n fuel).records →
      isCanonicalDateTime r.date = true ∨ isCanonicalDate r.date = true) := by
  refine ⟨normalize_date_canonical, ?_⟩
  intro net noResults adsOf ref fuel n r hr
  obtain ⟨ad, had⟩ := get_all_adsAux_records net noResults adsOf ref fuel n r hr
  unfold agregate_ad_info at had
  cases hn : normalize_date ad.dateText ref with
  | none => rw [hn] at had; exact Option.noConfusion had
  | some out =>
    rw [hn] at had
    rw [Option.some.injEq] at had
    have hd : r.date = out := by rw [← had]
    rw [hd]
    exact normalize_date_canonical _ _ _ hn

theorem yielded_record_date_canonical_witness :
    (⟨"t".data, "l".data, some 1, "2019-01-10".data⟩ : AdRecord) ∈
      (get_all_adsAux (fun _ => ⟨"u".data, "P".data⟩) (fun s => decide (s = "E".data))
        (fun s => if s = "P".data then
          [⟨"t".data, "l".data, "1 ₽".data, "10 января 2019".data⟩] else [])
        ⟨11, 1, 2019⟩ 1 1).records ∧
    (isCanonicalDateTime ("2019-01-10".data) = true ∨
      isCanonicalDate ("2019-01-10".data) = true) := by
  constructor
  · decide
  · exact yielded_record_date_canonical.2 (fun _ => ⟨"u".data, "P".data⟩)
      (fun s => decide (s = "E".data))
      (fun s => if s = "P".data then
        [⟨"t".data, "l".data, "1 ₽".data, "10 января 2019".data⟩] else [])
      ⟨11, 1, 2019⟩ 1 1 ⟨"t".data, "l".data, some 1, "2019-01-10".data⟩ (by decide)

/-- C6 counterexample: with a referenceNow whose day-of-month is 1,
normalizing "Вчера 15:29" yields no output at all — the
relative-to-absolute conversion does produce the day-0 string
"0 01 2019 15:29" without any month/year rollover, but `strptime`
rejects day 0, so `normalize_date` raises instead of returning a
string with day 0 in it. -/
theorem relative_day_zero_counterexample :
    convert_relative_date_to_absolute ("Вчера 15:29".data) ⟨1, 1, 2019⟩ =
      "0 01 2019 15:29".data ∧
    normalize_date ("Вчера 15:29".data) ⟨1, 1, 2019⟩ = none := by
  constructor <;> decide

/-- C6 (amended): for a "Вчера"-marked time string normalized with a
referenceNow whose day-of-month is 1, the relative-to-absolute
conversion performs no month/year rollover and yields day 0 of
referenceNow's month and year in the intermediate string; the
subsequent parse then fails on that day 0, so `normalize_date`
produces no output (a `ValueError` in the source) rather than an
output containing day 0. -/
theorem relative_day_zero_no_output (ref : Ref) (T : Str) (hday : ref.day = 1)
    (hT : ∀ c ∈ T, c ≠ 'В') :
    convert_relative_date_to_absolute ("Вчера".data ++ ' ' :: T) ref =
      '0' :: ' ' :: (pad2 ref.month ++ ' ' :: (renderNat ref.year ++ ' ' :: T)) ∧
    normalize_date ("Вчера".data ++ ' ' :: T) ref = none := by
  have hc := convert_vchera T ref hT
  rw [hday] at hc
  constructor
  · rw [hc]; rfl
  · apply normalize_relative_fail
    · exact Or.inl (isSub_append_self _ _)
    · rw [hc]
      exact parse_dmYHM_zero _

theorem relative_day_zero_no_output_witness :
    convert_relative_date_to_absolute ("Вчера 15:29".data) ⟨1, 1, 2019⟩ =
      "0 01 2019 15:29".data ∧
    normalize_date ("Вчера 15:29".data) ⟨1, 1, 2019⟩ = none := by
  have h := relative_day_zero_no_output ⟨1, 1, 2019⟩ ("15:29".data) rfl (by decide)
  exact ⟨h.1, h.2⟩

/-- C7: a raw date string without a relative marker whose month token
is outside the 12-entry vocabulary makes `normalize_date` fail
(`UnrecognizedFormat`, the source's `KeyError`) rather than produce
any output; a record whose normalization fails is not yielded and
neither is any record after it on that page, and the run ends with the
error after the records already yielded — the page is aborted, not the
one bad record skipped. -/
theorem unknown_month_fails_and_aborts_page :
    (∀ (date : Str) (ref : Ref) (tok : Str),
      isSub ("Вчера".data) date = false → isSub ("Сегодня".data) date = false →
      (pySplit date)[1]? = some tok → monthsMap tok = none →
      normalize_date date ref = none) ∧
    (∀ (ref : Ref) (ad : RawAd) (tl : List RawAd), agregate_ad_info ad ref = none →
      aggregateList ref (ad :: tl) = ([], true)) ∧
    (∀ (net : Nat → Response) (noResults : Str → Bool) (adsOf : Str → List RawAd)
        (ref : Ref) (n fuel : Nat) (a : RawAd) (tl : List RawAd) (rs : List AdRecord),
      (net n).url ≠ blockedUrl → noResults (net n).text = false →
      adsOf (net n).text = a :: tl → aggregateList ref (a :: tl) = (rs, true) →
      get_all_adsAux net noResults adsOf ref n (fuel + 1) =
        ⟨rs, [n], some .unrecognizedFormat⟩) := by
  refine ⟨?_, aggregateList_fail_head, get_all_adsAux_fail⟩
  intro date ref tok hc1 hc2 htok hmm
  exact normalize_month_fail date ref hc1 hc2 (replace_month_none date tok htok hmm)

theorem unknown_month_fails_and_aborts_page_witness :
    normalize_date ("10 xyz 2019".data) ⟨1, 1, 2019⟩ = none ∧
    get_all_adsAux (fun _ => ⟨"u".data, "P".data⟩) (fun _ => false)
      (fun _ => [⟨"t".data, "l".data, "1".data, "10 xyz 2019".data⟩,
                 ⟨"t2".data, "l2".data, "2".data, "10 января 2019".data⟩])
      ⟨1, 1, 2019⟩ 1 3 = ⟨[], [1], some .unrecognizedFormat⟩ := by
  constructor
  · exact unknown_month_fails_and_aborts_page.1 ("10 xyz 2019".data) ⟨1, 1, 2019⟩ ("xyz".data)
      (by decide) (by decide) (by decide) (by decide)
  · exact unknown_month_fails_and_aborts_page.2.2 (fun _ => ⟨"u".data, "P".data⟩)
      (fun _ => false)
      (fun _ => [⟨"t".data, "l".data, "1".data, "10 xyz 2019".data⟩,
                 ⟨"t2".data, "l2".data, "2".data, "10 января 2019".data⟩])
      ⟨1, 1, 2019⟩ 1 2 ⟨"t".data, "l".data, "1".data, "10 xyz 2019".data⟩
      [⟨"t2".data, "l2".data, "2".data, "10 января 2019".data⟩] []
      (by decide) (by decide) (by decide) (by decide)

/-- C8: the URL builder fails with `InvalidParameter` exactly when the
sort value is outside the spec enumeration {relevance, date,
price_asc, price_desc} (mapped to the source's `None`/`'date'`/
`'price'`/`'price_desc'` keys) or the owner value is outside {any,
private, company}; inside the sets it returns a page-templated URL
ending in the `&p={}` placeholder.  The failure is synchronous: an
invalid request errors before any fetch, and no mid-stream trace ever
carries `InvalidParameter`. -/
theorem search_url_invalid_parameter :
    (∀ (quoteFn : Str → Str) (q : Str) (s o : Option Str) (bt wi : Bool),
      (generate_search_url quoteFn q s bt wi o = .error .invalidParameter ↔
        (¬∃ e : SortBy, sortByArg e = s) ∨ (¬∃ w : OwnerKind, ownerArg w = o)) ∧
      ((∃ e : SortBy, sortByArg e = s) → (∃ w : OwnerKind, ownerArg w = o) →
        ∃ p, generate_search_url quoteFn q s bt wi o = .ok (p ++ "&p={}".data))) ∧
    (∀ (quoteFn : Str → Str) (net : Nat → Response) (noResults : Str → Bool)
        (adsOf : Str → List RawAd) (q : Str) (s : Option Str) (bt wi : Bool)
        (o : Option Str) (ref : Ref) (fuel : Nat),
      generate_search_url quoteFn q s bt wi o = .error .invalidParameter →
        get_all_ads quoteFn net noResults adsOf q s bt wi o ref fuel =
          ⟨[], [], some .invalidParameter⟩) ∧
    (∀ (net : Nat → Response) (noResults : Str → Bool) (adsOf : Str → List RawAd)
        (ref : Ref) (fuel n : Nat),
      (get_all_adsAux net noResults adsOf ref n fuel).error ≠ some .invalidParameter) := by
  refine ⟨?_, get_all_ads_invalid, get_all_adsAux_error_ne_invalid⟩
  intro quoteFn q s o bt wi
  obtain ⟨hiff, hok⟩ := generate_search_url_cases quoteFn q s o bt wi
  constructor
  · rw [hiff, sort_values_none_iff, owners_none_iff]
  · intro hs ho
    cases hsv : sort_values s with
    | none => exact absurd hs (by rw [← sort_values_none_iff]; exact hsv)
    | some sv =>
      cases hov : owners o with
      | none => exact absurd ho (by rw [← owners_none_iff]; exact hov)
      | some ov => exact hok sv ov hsv hov

theorem search_url_invalid_parameter_witness :
    (∃ p, generate_search_url (fun x => x) ("q".data) (some ("date".data)) false false none =
      .ok (p ++ "&p={}".data)) ∧
    generate_search_url (fun x => x) ("q".data) (some ("asc".data)) false false none =
      .error .invalidParameter ∧
    get_all_ads (fun x => x) (fun _ => ⟨"u".data, "P".data⟩) (fun _ => false) (fun _ => [])
      ("q".data) (some ("asc".data)) false false none ⟨1, 1, 2019⟩ 5 =
      ⟨[], [], some .invalidParameter⟩ := by
  refine ⟨?_, ?_, ?_⟩
  · exact (search_url_invalid_parameter.1 (fun x => x) ("q".data) (some ("date".data)) none
      false false).2 ⟨.date, rfl⟩ ⟨.anyOwner, rfl⟩
  · apply (search_url_invalid_parameter.1 (fun x => x) ("q".data) (some ("asc".data)) none
      false false).1.mpr
    left
    rintro ⟨e, he⟩
    cases e <;> exact absurd he (by decide)
  · exact search_url_invalid_parameter.2.1 (fun x => x) (fun _ => ⟨"u".data, "P".data⟩)
      (fun _ => false) (fun _ => []) ("q".data) (some ("asc".data)) false false none
      ⟨1, 1, 2019⟩ 5 rfl

/-- C9: price extraction keeps exactly the digits of the raw text and
reads them as a non-negative integer; the result is absent precisely
when no digit remains — never zero, never an error.  The witness
checks `"1 234 567 ₽" ↦ 1234567` and `"Бесплатно" ↦ None`. -/
theorem price_strips_non_digits (s : Str) :
    (get_price s = none ↔ s.filter isDig = []) ∧
    (∀ n, get_price s = some n → 0 ≤ n ∧ n = digitsToInt (s.filter isDig)) :=
  get_price_eval s

theorem price_strips_non_digits_witness :
    get_price ("1 234 567 ₽".data) = some 1234567 ∧
    get_price ("Бесплатно".data) = none ∧
    (0 : Int) ≤ 1234567 ∧ (1234567 : Int) = digitsToInt (("1 234 567 ₽".data).filter isDig) := by
  refine ⟨by decide, ?_, ?_⟩
  · exact (price_strips_non_digits ("Бесплатно".data)).1.mpr (by decide)
  · exact (price_strips_non_digits ("1 234 567 ₽".data)).2 1234567 (by decide)

/-- C10: a fetched page that passes the nothing-found check but
yields zero ad nodes makes `get_all_ads` stop at once: that page is
the last fetch, no record is yielded from it, and no error is raised —
while the pagination controller alone, given the same responses, would
go on to fetch the next page. -/
theorem empty_ads_page_terminates :
    (∀ (net : Nat → Response) (noResults : Str → Bool) (adsOf : Str → List RawAd)
        (ref : Ref) (n fuel : Nat),
      (net n).url ≠ blockedUrl → noResults (net n).text = false → adsOf (net n).text = [] →
      get_all_adsAux net noResults adsOf ref n (fuel + 1) = ⟨[], [n], none⟩) ∧
    (∀ (net : Nat → Response) (noResults : Str → Bool) (n fuel : Nat),
      (net n).url ≠ blockedUrl → noResults (net n).text = false →
      (n + 1) ∈ (get_pagesAux net noResults n (fuel + 1 + 1)).fetched) ∧
    (∀ (quoteFn : Str → Str) (net : Nat → Response) (noResults : Str → Bool)
        (adsOf : Str → List RawAd) (q : Str) (bt wi : Bool) (ref : Ref) (fuel : Nat),
      (net 1).url ≠ blockedUrl → noResults (net 1).text = false → adsOf (net 1).text = [] →
      get_all_ads quoteFn net noResults adsOf q none bt wi none ref (fuel + 1) =
        ⟨[], [1], none⟩) := by
  refine ⟨get_all_adsAux_empty, get_pagesAux_next, ?_⟩
  intro quoteFn net noResults adsOf q bt wi ref fuel hb hm he
  obtain ⟨p, hp⟩ := (generate_search_url_cases quoteFn q none none bt wi).2
    ("101".data) ("0".data) rfl rfl
  rw [get_all_ads_valid quoteFn net noResults adsOf q none bt wi none ref (fuel + 1) _ hp]
  exact get_all_adsAux_empty net noResults adsOf ref 1 fuel hb hm he

theorem empty_ads_page_terminates_witness :
    get_all_ads (fun x => x) (fun _ => ⟨"u".data, "P".data⟩) (fun _ => false) (fun _ => [])
      ("q".data) none false false none ⟨1, 1, 2019⟩ 4 = ⟨[], [1], none⟩ ∧
    2 ∈ (get_pagesAux (fun _ => ⟨"u".data, "P".data⟩) (fun _ => false) 1 4).fetched := by
  constructor
  · exact empty_ads_page_terminates.2.2 (fun x => x) (fun _ => ⟨"u".data, "P".data⟩)
      (fun _ => false) (fun _ => []) ("q".data) false false ⟨1, 1, 2019⟩ 3
      (by decide) (by decide) (by decide)
  · exact empty_ads_page_terminates.2.1 (fun _ => ⟨"u".data, "P".data⟩) (fun _ => false) 1 2
      (by decide) (by decide)

end Avito
